import Mathlib

/-!
# Lockbox controller (`enel300project.c`)

A shallow embedding of the code-entry state machine of the lockbox firmware.

* The globals `secretCode`, `enteredCode`, `codeIndex`, `resetButtonActive`,
  `settingNewCode`, the function-static `waitForNewCode` and the two output
  registers `PORTA.OUT`, `PORTC.OUT` form the `State`.
* The input registers `PORTA.IN`, `PORTC.IN` are the `Inputs` of one call of
  `processButtons`; they are sampled once per call (every `readButton` of the
  same call sees the same register values).
* Byte arrays are `List Nat`; an access outside an array is undefined
  behaviour in C and is modelled by `none`.
* Every call of `processButtons` returns, next to the new state, the list of
  the routines it invoked (`Event`), in program order.
-/

namespace Lockbox

/-! ## Constants (`#define`s) -/

def DEBOUNCE_TIME_MS : Nat := 1000
def MAX_CODE_LENGTH : Nat := 5
def FLASH_LONG_DURATION_MS : Nat := 2000
def FLASH_SHORT_DURATION_MS : Nat := 250
def SECRET_CODE_LENGTH : Nat := 5

/-! ## Hardware registers -/

/-- The output registers `PORTA.OUT` and `PORTC.OUT` (8 bits each). -/
structure Ports where
  portA_out : Nat
  portC_out : Nat
deriving DecidableEq

/-- The input registers `PORTA.IN` and `PORTC.IN` as read during one call. -/
structure Inputs where
  portA_in : Nat
  portC_in : Nat
deriving DecidableEq

/-- A write of `v` to `PORTx.OUTSET`: the bits of `v` are set in `OUT`. -/
def OUTSET (out v : Nat) : Nat := (out ||| v) % 256

/-- A write of `v` to `PORTx.OUTCLR`: the bits of `v` are cleared in `OUT`. -/
def OUTCLR (out v : Nat) : Nat := (out &&& (v ^^^ 255)) % 256

/-- A write of `v` to `PORTx.OUTTGL`: the bits of `v` are toggled in `OUT`. -/
def OUTTGL (out v : Nat) : Nat := (out ^^^ v) % 256

/-- One blocking delay `_delay_ms(ms)`, with the output registers as they
stand while it elapses. -/
structure Tick where
  ms : Nat
  portA_out : Nat
  portC_out : Nat
deriving DecidableEq

/-- The output part of `initIO`: `PORTA.OUTSET = 0xE0; PORTC.OUTSET = 0x02`. -/
def initIO (p : Ports) : Ports :=
  { portA_out := OUTSET p.portA_out 0xE0, portC_out := OUTSET p.portC_out 0x02 }

/-- The C function `readButton`: the buttons are active-low, `!(x)` is `x == 0`. -/
def readButton (inp : Inputs) (pin : Nat) : Bool :=
  if pin ≥ 1 ∧ pin ≤ 3 then (inp.portA_in &&& (1 <<< pin)) == 0
  else if pin = 4 then (inp.portC_in &&& (1 <<< 0)) == 0
  else if pin = 5 then (inp.portC_in &&& (1 <<< 2)) == 0
  else false

/-- The C function `toggleLED`. -/
def toggleLED (p : Ports) (pin : Nat) : Ports :=
  let p1 := if pin ≥ 1 ∧ pin ≤ 3 then { p with portA_out := OUTTGL p.portA_out (1 <<< (pin + 4)) } else p
  if pin = 4 then { p1 with portC_out := OUTTGL p1.portC_out (1 <<< 1) } else p1

/-- The C function `debounce`: one `_delay_ms(DEBOUNCE_TIME_MS)`. -/
def debounce (p : Ports) : List Tick :=
  [⟨DEBOUNCE_TIME_MS, p.portA_out, p.portC_out⟩]

/-- The C function `variable_delay_ms`: the loop runs `_delay_ms(1)` and
decrements until the counter is 0; the result lists the delays executed. -/
def variable_delay_ms (p : Ports) : Nat → List Tick
  | 0 => []
  | milliseconds + 1 => ⟨1, p.portA_out, p.portC_out⟩ :: variable_delay_ms p milliseconds

/-- One iteration of the body of the `while (count--)` loop of `flashLEDs`. -/
def flashLEDs_body (p : Ports) (duration : Nat) (success : Bool) : Ports × List Tick :=
  if success then
    let p1 : Ports := { p with portA_out := OUTCLR p.portA_out 0xE0 }
    let p2 : Ports := { p1 with portC_out := OUTCLR p1.portC_out (1 <<< 1) }
    let t1 := variable_delay_ms p2 duration
    let p3 : Ports := { p2 with portA_out := OUTSET p2.portA_out 0xE0 }
    let p4 : Ports := { p3 with portC_out := OUTSET p3.portC_out (1 <<< 1) }
    (p4, t1)
  else
    let p1 : Ports := { p with portA_out := OUTTGL p.portA_out 0xE0 }
    let p2 : Ports := { p1 with portC_out := OUTTGL p1.portC_out (1 <<< 1) }
    let t1 := variable_delay_ms p2 duration
    let p3 : Ports := { p2 with portA_out := OUTTGL p2.portA_out 0xE0 }
    let p4 : Ports := { p3 with portC_out := OUTTGL p3.portC_out (1 <<< 1) }
    let p5 : Ports := { p4 with portA_out := OUTSET p4.portA_out 0xE0 }
    let p6 : Ports := { p5 with portC_out := OUTSET p5.portC_out (1 <<< 1) }
    let t2 := variable_delay_ms p6 duration
    (p6, t1 ++ t2)

/-- The C function `flashLEDs`: `while (count--)` runs the body `count` times. -/
def flashLEDs (p : Ports) (duration : Nat) : Nat → Bool → Ports × List Tick
  | 0, _ => (p, [])
  | count + 1, success =>
    let r := flashLEDs_body p duration success
    let r2 := flashLEDs r.1 duration count success
    (r2.1, r.2 ++ r2.2)

/-- The C function `rotate`. A read of `OUTSET` returns `OUT`, so
`PORTA.OUTSET &= 0` writes 0 and `PORTA.OUTSET |= m` writes `OUT | m`. -/
def rotate (p : Ports) (success : Bool) : Ports × List Tick :=
  let p1 : Ports := { p with portA_out := OUTSET p.portA_out (p.portA_out &&& 0) }
  if success then
    let p2 : Ports := { p1 with portA_out := OUTSET p1.portA_out (p1.portA_out ||| 0x10) }
    (p2, [⟨2000, p2.portA_out, p2.portC_out⟩])
  else
    let p2 : Ports := { p1 with portA_out := OUTSET p1.portA_out (p1.portA_out ||| 0x01) }
    (p2, [⟨2000, p2.portA_out, p2.portC_out⟩])

/-! ## Array helpers -/

/-- The loop of `compareCode` from index `i` with `k` iterations left
(`k = length - i`); a read outside either array gives `none`. -/
def compareCodeFrom (code1 code2 : List Nat) : Nat → Nat → Option Bool
  | _, 0 => some true
  | i, k + 1 =>
    match code1[i]?, code2[i]? with
    | some a, some b => if a ≠ b then some false else compareCodeFrom code1 code2 (i + 1) k
    | _, _ => none

/-- The C function `compareCode`. It only reads through its two pointers, so
the result is the returned flag alone. `length` is a `uint8_t`; the index
`i < length` never wraps. -/
def compareCode (code1 code2 : List Nat) (length : Nat) : Option Bool :=
  compareCodeFrom code1 code2 0 length

/-- The loop of `copy_array` from index `i` with `k` iterations left. -/
def copy_arrayFrom (dest src : List Nat) : Nat → Nat → Option (List Nat)
  | _, 0 => some dest
  | i, k + 1 =>
    match src[i]? with
    | some v => if i < dest.length then copy_arrayFrom (dest.set i v) src (i + 1) k else none
    | none => none

/-- The C function `copy_array`: the new contents of `dest`. -/
def copy_array (dest src : List Nat) (n : Nat) : Option (List Nat) :=
  copy_arrayFrom dest src 0 n

/-- The loop of `my_memset`: `p` is the offset of the moving pointer, `k` the
iterations left. -/
def my_memsetFrom (s : List Nat) (c : Nat) : Nat → Nat → Option (List Nat)
  | _, 0 => some s
  | p, k + 1 => if p < s.length then my_memsetFrom (s.set p (c % 256)) c (p + 1) k else none

/-- The C function `my_memset`: the new contents of the array `s`. -/
def my_memset (s : List Nat) (c : Nat) (n : Nat) : Option (List Nat) :=
  my_memsetFrom s c 0 n

/-! ## The state machine -/

/-- The routines a call of `processButtons` invokes. -/
inductive Event where
  | debounce
  | toggleLED (pin : Nat)
  | flashLEDs (duration count : Nat) (success : Bool)
  | rotate (success : Bool)
deriving DecidableEq

/-- The program state between two calls of `processButtons`. -/
structure State where
  secretCode : List Nat
  enteredCode : List Nat
  codeIndex : Nat
  resetButtonActive : Bool
  settingNewCode : Bool
  waitForNewCode : Bool
  ports : Ports
deriving DecidableEq

/-- The state when `main` enters its loop: the initialisers of the globals
(`enteredCode` is zero-initialised) and the outputs as `initIO` leaves them
from the reset value 0 of the `OUT` registers. -/
def startup : State :=
  { secretCode := [2, 2, 2, 2, 2]
    enteredCode := [0, 0, 0, 0, 0]
    codeIndex := 0
    resetButtonActive := false
    settingNewCode := true
    waitForNewCode := false
    ports := initIO ⟨0, 0⟩ }

/-- The `for (pin = 1; pin < 5; ++pin) if (readButton(pin)) { ...; break; }`
scan: the pin whose body runs, the first of 1, 2, 3, 4 that reads pressed. -/
def firstPressed (inp : Inputs) : Option Nat :=
  [1, 2, 3, 4].find? (fun pin => readButton inp pin)

/-- The statements shared by both scan bodies:
`debounce(); enteredCode[codeIndex] = (pin < 4) ? pin + 1 : 5; toggleLED(pin); codeIndex++;`. -/
def storePress (s : State) (pin : Nat) : Option (State × List Event) :=
  if s.codeIndex < s.enteredCode.length then
    some ({ s with
              enteredCode := s.enteredCode.set s.codeIndex (if pin < 4 then pin + 1 else 5)
              ports := toggleLED s.ports pin
              codeIndex := (s.codeIndex + 1) % 256 },
          [Event.debounce, Event.toggleLED pin])
  else none

/-- The first block of `processButtons` (lines 134-157), entered when neither
`waitForNewCode` nor `resetButtonActive` is set. -/
def verifyBlock (s : State) (inp : Inputs) : Option (State × List Event) :=
  match firstPressed inp with
  | none => some (s, [])
  | some pin =>
    match storePress s pin with
    | none => none
    | some (s1, log1) =>
      if s1.codeIndex = MAX_CODE_LENGTH then
        match compareCode s1.enteredCode s1.secretCode MAX_CODE_LENGTH with
        | none => none
        | some true =>
          let s2 : State := { s1 with ports := (flashLEDs s1.ports FLASH_LONG_DURATION_MS 1 true).1 }
          let s3 : State := { s2 with resetButtonActive := true }
          let s4 : State := { s3 with codeIndex := 0 }
          match my_memset s4.enteredCode 0 MAX_CODE_LENGTH with
          | none => none
          | some e =>
            some ({ s4 with enteredCode := e },
                  log1 ++ [Event.flashLEDs FLASH_LONG_DURATION_MS 1 true])
        | some false =>
          let s2 : State := { s1 with ports := (flashLEDs s1.ports FLASH_SHORT_DURATION_MS 3 false).1 }
          let s3 : State := { s2 with ports := (rotate s2.ports false).1 }
          let s4 : State := { s3 with codeIndex := 0 }
          match my_memset s4.enteredCode 0 MAX_CODE_LENGTH with
          | none => none
          | some e =>
            some ({ s4 with enteredCode := e },
                  log1 ++ [Event.flashLEDs FLASH_SHORT_DURATION_MS 3 false, Event.rotate false])
      else some (s1, log1)

/-- The reset-button block of `processButtons` (lines 160-168), run when
`readButton(5) && resetButtonActive` holds; the call returns after it. -/
def resetBlock (s : State) : Option (State × List Event) :=
  let s1 : State := { s with ports := (flashLEDs s.ports FLASH_SHORT_DURATION_MS 3 false).1 }
  match my_memset s1.secretCode 0 MAX_CODE_LENGTH with
  | none => none
  | some sc =>
    some ({ s1 with secretCode := sc, codeIndex := 0, resetButtonActive := false, waitForNewCode := true },
          [Event.debounce, Event.flashLEDs FLASH_SHORT_DURATION_MS 3 false])

/-- The last block of `processButtons` (lines 171-190), entered when
`waitForNewCode` is set. -/
def newCodeBlock (s : State) (inp : Inputs) : Option (State × List Event) :=
  match firstPressed inp with
  | none => some (s, [])
  | some pin =>
    match storePress s pin with
    | none => none
    | some (s1, log1) =>
      if s1.codeIndex = MAX_CODE_LENGTH then
        match copy_array s1.secretCode s1.enteredCode MAX_CODE_LENGTH with
        | none => none
        | some sc =>
          let s2 : State := { s1 with secretCode := sc }
          let s3 : State := { s2 with ports := (flashLEDs s2.ports FLASH_LONG_DURATION_MS 1 true).1 }
          let s4 : State := { s3 with waitForNewCode := false, codeIndex := 0 }
          match my_memset s4.enteredCode 0 MAX_CODE_LENGTH with
          | none => none
          | some e =>
            some ({ s4 with enteredCode := e },
                  log1 ++ [Event.flashLEDs FLASH_LONG_DURATION_MS 1 true])
      else some (s1, log1)

/-- The C function `processButtons`: the state after the call and the
routines invoked during it, or `none` when the call writes outside an array. -/
def processButtons (s : State) (inp : Inputs) : Option (State × List Event) :=
  match (if !s.waitForNewCode && !s.resetButtonActive then verifyBlock s inp else some (s, [])) with
  | none => none
  | some (s1, log1) =>
    if readButton inp 5 && s1.resetButtonActive then
      match resetBlock s1 with
      | none => none
      | some (s2, log2) => some (s2, log1 ++ log2)
    else if s1.waitForNewCode then
      match newCodeBlock s1 inp with
      | none => none
      | some (s2, log2) => some (s2, log1 ++ log2)
    else some (s1, log1)

/-- The loop of `main` over finitely many iterations: one call of
`processButtons` per element of the list of input readings. The result is the
final state and the events of each call. -/
def runCalls : State → List Inputs → Option (State × List (List Event))
  | s, [] => some (s, [])
  | s, inp :: rest =>
    match processButtons s inp with
    | none => none
    | some (s1, log) =>
      match runCalls s1 rest with
      | none => none
      | some (s2, logs) => some (s2, log :: logs)

/-! ## Scenario vocabulary -/

/-- Exactly one button reads pressed during the call, the code button `b`. -/
def SinglePress (inp : Inputs) (b : Nat) : Prop :=
  1 ≤ b ∧ b ≤ 4 ∧ ∀ p ∈ [1, 2, 3, 4, 5], (readButton inp p = true ↔ p = b)

instance (inp : Inputs) (b : Nat) : Decidable (SinglePress inp b) := by
  unfold SinglePress; exact inferInstance

/-- The arrays have their declared size `MAX_CODE_LENGTH`. -/
def State.WF (s : State) : Prop :=
  s.secretCode.length = MAX_CODE_LENGTH ∧ s.enteredCode.length = MAX_CODE_LENGTH

instance (s : State) : Decidable s.WF := by
  unfold State.WF; exact inferInstance

/-- The states the program can be in between two calls of `processButtons`,
whatever the buttons read. -/
inductive Reachable : State → Prop where
  | start : Reachable startup
  | call {s s1 : State} {log : List Event} (inp : Inputs) :
      Reachable s → processButtons s inp = some (s1, log) → Reachable s1

/-- The invariant of the reachable states: the arrays have their declared
size, the fill count is below 5, the slots from the fill count on are 0, the
slots below it hold symbols in 2..5, `resetButtonActive` comes with
`waitForNewCode` clear and fill count 0, and outside Reprogram mode the secret
holds symbols in 2..5. -/
def Inv (s : State) : Prop :=
  s.WF ∧ s.codeIndex < 5 ∧
  (∀ v ∈ s.enteredCode.drop s.codeIndex, v = 0) ∧
  (∀ v ∈ s.enteredCode.take s.codeIndex, 2 ≤ v ∧ v ≤ 5) ∧
  (s.resetButtonActive = true → s.waitForNewCode = false ∧ s.codeIndex = 0) ∧
  (s.waitForNewCode = false → ∀ c ∈ s.secretCode, 2 ≤ c ∧ c ≤ 5)

instance (s : State) : Decidable (Inv s) := by
  unfold Inv; exact inferInstance

/-- The feedback routines among the events: `flashLEDs` and `rotate`. -/
def Event.isFeedback : Event → Bool
  | Event.flashLEDs _ _ _ => true
  | Event.rotate _ => true
  | _ => false

/-- The four indicator lines (PORTA bits 5..7 and PORTC bit 1) are off: the
lines are active-low, so off means that their output bits are set. -/
def LEDsOff (portA_out portC_out : Nat) : Prop :=
  portA_out.testBit 5 = true ∧ portA_out.testBit 6 = true ∧ portA_out.testBit 7 = true ∧
  portC_out.testBit 1 = true

instance (a c : Nat) : Decidable (LEDsOff a c) := by
  unfold LEDsOff; exact inferInstance

/-- The four indicator lines are on: their output bits are cleared. -/
def LEDsOn (portA_out portC_out : Nat) : Prop :=
  portA_out.testBit 5 = false ∧ portA_out.testBit 6 = false ∧ portA_out.testBit 7 = false ∧
  portC_out.testBit 1 = false

instance (a c : Nat) : Decidable (LEDsOn a c) := by
  unfold LEDsOn; exact inferInstance

/-- No button reads pressed during the call. -/
def NoPress (inp : Inputs) : Prop :=
  ∀ p ∈ [1, 2, 3, 4, 5], readButton inp p = false

instance (inp : Inputs) : Decidable (NoPress inp) := by
  unfold NoPress; exact inferInstance

/-! ## compareCode -/

theorem compareCodeFrom_spec (code1 code2 : List Nat) :
    ∀ (k i : Nat), i + k ≤ code1.length → i + k ≤ code2.length →
      ∃ b, compareCodeFrom code1 code2 i k = some b ∧
        (b = true ↔ ∀ j, i ≤ j → j < i + k → code1[j]? = code2[j]?) := by
  intro k
  induction k with
  | zero =>
    intro i _ _
    exact ⟨true, rfl, by simp; intro j h1 h2; omega⟩
  | succ k ih =>
    intro i h1 h2
    have hi1 : i < code1.length := by omega
    have hi2 : i < code2.length := by omega
    obtain ⟨b, hb, hiff⟩ := ih (i + 1) (by omega) (by omega)
    simp only [compareCodeFrom, List.getElem?_eq_getElem hi1, List.getElem?_eq_getElem hi2]
    by_cases hne : code1[i] = code2[i]
    · refine ⟨b, by simp [hne, hb], ?_⟩
      rw [hiff]
      constructor
      · intro h j hj1 hj2
        rcases Nat.eq_or_lt_of_le hj1 with heq | hlt
        · subst heq
          simp [List.getElem?_eq_getElem hi1, List.getElem?_eq_getElem hi2, hne]
        · exact h j hlt (by omega)
      · intro h j hj1 hj2
        exact h j (by omega) (by omega)
    · refine ⟨false, by simp [hne], ?_⟩
      simp only [Bool.false_eq_true, false_iff]
      intro h
      have := h i (Nat.le_refl i) (by omega)
      simp [List.getElem?_eq_getElem hi1, List.getElem?_eq_getElem hi2] at this
      exact hne this

/-- C1: for byte arrays `code1`, `code2` with at least `n` elements each,
`compareCode code1 code2 n` returns a flag (no read outside the arrays), and
the flag is true exactly when `code1[i] = code2[i]` for every `i < n`. The
function yields the flag only: it has no write through either pointer. -/
theorem compareCode_true_iff (code1 code2 : List Nat) (n : Nat)
    (h1 : n ≤ code1.length) (h2 : n ≤ code2.length) :
    ∃ b, compareCode code1 code2 n = some b ∧
      (b = true ↔ ∀ i, i < n → code1[i]? = code2[i]?) := by
  obtain ⟨b, hb, hiff⟩ := compareCodeFrom_spec code1 code2 n 0 (by omega) (by omega)
  refine ⟨b, hb, ?_⟩
  rw [hiff]
  constructor
  · intro h i hi
    exact h i (Nat.zero_le i) (by omega)
  · intro h i _ hi
    exact h i (by omega)

theorem compareCode_true_iff_witness :
    4 ≤ [2, 3, 4, 5, 2].length ∧ 4 ≤ [2, 3, 4, 5, 3].length ∧
    ∃ b, compareCode [2, 3, 4, 5, 2] [2, 3, 4, 5, 3] 4 = some b ∧
      (b = true ↔ ∀ i, i < 4 → [2, 3, 4, 5, 2][i]? = [2, 3, 4, 5, 3][i]?) :=
  ⟨by decide, by decide,
    compareCode_true_iff [2, 3, 4, 5, 2] [2, 3, 4, 5, 3] 4 (by decide) (by decide)⟩

/-! ## Facts about the helpers on five-element arrays -/

theorem length_five {l : List Nat} (h : l.length = 5) :
    ∃ a b c d e, l = [a, b, c, d, e] := by
  match l, h with
  | [a, b, c, d, e], _ => exact ⟨a, b, c, d, e, rfl⟩

theorem my_memset_five (l : List Nat) (h : l.length = 5) :
    my_memset l 0 5 = some [0, 0, 0, 0, 0] := by
  obtain ⟨a, b, c, d, e, rfl⟩ := length_five h
  rfl

theorem copy_array_five (dest src : List Nat) (hd : dest.length = 5) (hs : src.length = 5) :
    copy_array dest src 5 = some src := by
  obtain ⟨a, b, c, d, e, rfl⟩ := length_five hd
  obtain ⟨a1, b1, c1, d1, e1, rfl⟩ := length_five hs
  rfl

theorem compareCode_five (l1 l2 : List Nat) (h1 : l1.length = 5) (h2 : l2.length = 5) :
    compareCode l1 l2 5 = some (decide (l1 = l2)) := by
  obtain ⟨b, hb, hiff⟩ := compareCodeFrom_spec l1 l2 5 0 (by omega) (by omega)
  have hb1 : compareCode l1 l2 5 = some b := hb
  rw [hb1]
  congr 1
  have : (∀ i, 0 ≤ i → i < 0 + 5 → l1[i]? = l2[i]?) ↔ l1 = l2 := by
    constructor
    · intro h
      apply List.ext_getElem?
      intro i
      by_cases hi : i < 5
      · exact h i (Nat.zero_le i) (by omega)
      · rw [List.getElem?_eq_none (by omega), List.getElem?_eq_none (by omega)]
    · intro h i _ _
      rw [h]
  rw [this] at hiff
  cases b <;> simp_all

theorem firstPressed_mem {inp : Inputs} {b : Nat} (h : firstPressed inp = some b) :
    (b = 1 ∨ b = 2 ∨ b = 3 ∨ b = 4) ∧ readButton inp b = true := by
  unfold firstPressed at h
  have hm := List.mem_of_find?_eq_some h
  have hp := List.find?_some h
  simp at hm
  exact ⟨hm, hp⟩

theorem firstPressed_of_single {inp : Inputs} {b : Nat} (h : SinglePress inp b) :
    firstPressed inp = some b ∧ readButton inp 5 = false := by
  obtain ⟨h1, h4, hp⟩ := h
  have key : ∀ p, 1 ≤ p → p ≤ 5 → readButton inp p = decide (p = b) := by
    intro p hp1 hp5
    have := hp p (by simp; omega)
    by_cases hpb : p = b
    · have ht := this.mpr hpb
      rw [ht]; simp [hpb]
    · have hne : readButton inp p ≠ true := fun hc => hpb (this.mp hc)
      simp [hpb, hne]
  have r1 := key 1 (by omega) (by omega)
  have r2 := key 2 (by omega) (by omega)
  have r3 := key 3 (by omega) (by omega)
  have r4 := key 4 (by omega) (by omega)
  have r5 := key 5 (by omega) (by omega)
  have hb : b = 1 ∨ b = 2 ∨ b = 3 ∨ b = 4 := by omega
  rcases hb with rfl | rfl | rfl | rfl <;>
    simp [firstPressed, List.find?, r1, r2, r3, r4, r5]

/-! ## Single calls of `processButtons` -/

/-- A call that stores one of the first four symbols (both entry modes). -/
theorem processButtons_store (s : State) (inp : Inputs) (b : Nat)
    (hr : s.resetButtonActive = false) (hb : firstPressed inp = some b)
    (hk : s.codeIndex < 4) (hlen : s.codeIndex < s.enteredCode.length) :
    processButtons s inp = some
      ({ s with enteredCode := s.enteredCode.set s.codeIndex (b + 1)
                ports := toggleLED s.ports b
                codeIndex := s.codeIndex + 1 },
       [Event.debounce, Event.toggleLED b]) := by
  obtain ⟨hbm, _⟩ := firstPressed_mem hb
  have hsym : (if b < 4 then b + 1 else 5) = b + 1 := by
    rcases hbm with rfl | rfl | rfl | rfl <;> rfl
  have hmod : (s.codeIndex + 1) % 256 = s.codeIndex + 1 := Nat.mod_eq_of_lt (by omega)
  have hne : ¬ (s.codeIndex + 1 = 5) := by omega
  cases hw : s.waitForNewCode <;>
    simp [processButtons, verifyBlock, newCodeBlock, storePress, hb, hr, hw, hlen, hsym, hmod,
      hne, MAX_CODE_LENGTH]

/-- The first block on the call that stores the fifth symbol. -/
theorem verifyBlock_complete (s : State) (inp : Inputs) (b : Nat)
    (hwf : s.WF) (hb : firstPressed inp = some b) (hk : s.codeIndex = 4) :
    verifyBlock s inp = some
      (if s.enteredCode.set 4 (b + 1) = s.secretCode then
        ({ s with enteredCode := [0, 0, 0, 0, 0]
                  codeIndex := 0
                  resetButtonActive := true
                  ports := (flashLEDs (toggleLED s.ports b) FLASH_LONG_DURATION_MS 1 true).1 },
         [Event.debounce, Event.toggleLED b, Event.flashLEDs FLASH_LONG_DURATION_MS 1 true])
      else
        ({ s with enteredCode := [0, 0, 0, 0, 0]
                  codeIndex := 0
                  ports := (rotate (flashLEDs (toggleLED s.ports b) FLASH_SHORT_DURATION_MS 3 false).1
                              false).1 },
         [Event.debounce, Event.toggleLED b, Event.flashLEDs FLASH_SHORT_DURATION_MS 3 false,
          Event.rotate false])) := by
  obtain ⟨hbm, _⟩ := firstPressed_mem hb
  obtain ⟨hs, he⟩ := hwf
  have hsym : (if b < 4 then b + 1 else 5) = b + 1 := by
    rcases hbm with rfl | rfl | rfl | rfl <;> rfl
  have hlen : (s.enteredCode.set 4 (b + 1)).length = 5 := by rw [List.length_set]; exact he
  have hcmp := compareCode_five (s.enteredCode.set 4 (b + 1)) s.secretCode hlen hs
  have hms := my_memset_five (s.enteredCode.set 4 (b + 1)) hlen
  have hlt : 4 < s.enteredCode.length := by rw [he]; decide
  by_cases heq : s.enteredCode.set 4 (b + 1) = s.secretCode
  · have hcmp1 : compareCode (s.enteredCode.set 4 (b + 1)) s.secretCode 5 = some true := by
      rw [hcmp]; simp [heq]
    rw [if_pos heq]
    simp [verifyBlock, storePress, hb, hk, hlt, hsym, hcmp1, hms, MAX_CODE_LENGTH]
  · have hcmp0 : compareCode (s.enteredCode.set 4 (b + 1)) s.secretCode 5 = some false := by
      rw [hcmp]; simp [heq]
    rw [if_neg heq]
    simp [verifyBlock, storePress, hb, hk, hlt, hsym, hcmp0, hms, MAX_CODE_LENGTH]

/-- The reset block on arrays of the declared size. -/
theorem resetBlock_eq (s : State) (hs : s.secretCode.length = 5) :
    resetBlock s = some
      ({ s with secretCode := [0, 0, 0, 0, 0]
                codeIndex := 0
                resetButtonActive := false
                waitForNewCode := true
                ports := (flashLEDs s.ports FLASH_SHORT_DURATION_MS 3 false).1 },
       [Event.debounce, Event.flashLEDs FLASH_SHORT_DURATION_MS 3 false]) := by
  simp [resetBlock, my_memset_five s.secretCode hs, MAX_CODE_LENGTH]

/-- A call in AwaitReset (or with both flags set) with the reset button pressed. -/
theorem processButtons_reset (s : State) (inp : Inputs)
    (hr : s.resetButtonActive = true) (h5 : readButton inp 5 = true)
    (hs : s.secretCode.length = 5) :
    processButtons s inp = some
      ({ s with secretCode := [0, 0, 0, 0, 0]
                codeIndex := 0
                resetButtonActive := false
                waitForNewCode := true
                ports := (flashLEDs s.ports FLASH_SHORT_DURATION_MS 3 false).1 },
       [Event.debounce, Event.flashLEDs FLASH_SHORT_DURATION_MS 3 false]) := by
  simp [processButtons, hr, h5, resetBlock_eq s hs]

/-- The call that stores the fifth symbol in Reprogram mode. -/
theorem processButtons_newCode_complete (s : State) (inp : Inputs) (b : Nat)
    (hwf : s.WF) (hw : s.waitForNewCode = true) (hr : s.resetButtonActive = false)
    (hb : firstPressed inp = some b) (hk : s.codeIndex = 4) :
    processButtons s inp = some
      ({ s with secretCode := s.enteredCode.set 4 (b + 1)
                enteredCode := [0, 0, 0, 0, 0]
                codeIndex := 0
                waitForNewCode := false
                ports := (flashLEDs (toggleLED s.ports b) FLASH_LONG_DURATION_MS 1 true).1 },
       [Event.debounce, Event.toggleLED b, Event.flashLEDs FLASH_LONG_DURATION_MS 1 true]) := by
  obtain ⟨hbm, _⟩ := firstPressed_mem hb
  obtain ⟨hs, he⟩ := hwf
  have hsym : (if b < 4 then b + 1 else 5) = b + 1 := by
    rcases hbm with rfl | rfl | rfl | rfl <;> rfl
  have hlen : (s.enteredCode.set 4 (b + 1)).length = 5 := by rw [List.length_set]; exact he
  have hcp := copy_array_five s.secretCode (s.enteredCode.set 4 (b + 1)) hs hlen
  have hms := my_memset_five (s.enteredCode.set 4 (b + 1)) hlen
  have hlt : 4 < s.enteredCode.length := by rw [he]; decide
  simp [processButtons, newCodeBlock, storePress, hb, hk, hlt, hsym, hcp, hms, hw, hr,
    MAX_CODE_LENGTH]

/-- The call that stores the fifth symbol in Verify mode, reset button not pressed. -/
theorem processButtons_verify_complete (s : State) (inp : Inputs) (b : Nat)
    (hwf : s.WF) (hw : s.waitForNewCode = false) (hr : s.resetButtonActive = false)
    (hb : firstPressed inp = some b) (h5 : readButton inp 5 = false) (hk : s.codeIndex = 4) :
    processButtons s inp = verifyBlock s inp := by
  rw [processButtons, verifyBlock_complete s inp b hwf hb hk]
  by_cases heq : s.enteredCode.set 4 (b + 1) = s.secretCode <;>
    simp [hw, hr, h5, heq]

/-! ## Sequences of calls -/

theorem runCalls_cons (s s1 : State) (inp : Inputs) (log : List Event) (rest : List Inputs)
    (h : processButtons s inp = some (s1, log)) :
    runCalls s (inp :: rest) =
      match runCalls s1 rest with
      | none => none
      | some (s2, logs) => some (s2, log :: logs) := by
  simp [runCalls, h]

/-- Four presses from fill count 0 in an entry mode fill the first four slots. -/
theorem runCalls_entry_four (s : State) (i1 i2 i3 i4 : Inputs) (b1 b2 b3 b4 : Nat)
    (rest : List Inputs)
    (hr : s.resetButtonActive = false) (hk : s.codeIndex = 0) (he : s.enteredCode.length = 5)
    (h1 : firstPressed i1 = some b1) (h2 : firstPressed i2 = some b2)
    (h3 : firstPressed i3 = some b3) (h4 : firstPressed i4 = some b4) :
    runCalls s (i1 :: i2 :: i3 :: i4 :: rest) =
      match runCalls
          { s with enteredCode :=
                     (((s.enteredCode.set 0 (b1 + 1)).set 1 (b2 + 1)).set 2 (b3 + 1)).set 3 (b4 + 1)
                   codeIndex := 4
                   ports := toggleLED (toggleLED (toggleLED (toggleLED s.ports b1) b2) b3) b4 }
          rest with
      | none => none
      | some (s2, logs) =>
        some (s2, [Event.debounce, Event.toggleLED b1] :: [Event.debounce, Event.toggleLED b2] ::
                  [Event.debounce, Event.toggleLED b3] :: [Event.debounce, Event.toggleLED b4] ::
                  logs) := by
  obtain ⟨sc, ec, ci, ra, sn, w, p⟩ := s
  simp only at hr hk he
  subst hr hk
  have c1 := processButtons_store ⟨sc, ec, 0, false, sn, w, p⟩ i1 b1 rfl h1 (by simp)
    (by simp [he])
  have c2 := processButtons_store ⟨sc, ec.set 0 (b1 + 1), 1, false, sn, w, toggleLED p b1⟩ i2 b2
    rfl h2 (by simp) (by simp [he])
  have c3 := processButtons_store
    ⟨sc, (ec.set 0 (b1 + 1)).set 1 (b2 + 1), 2, false, sn, w, toggleLED (toggleLED p b1) b2⟩ i3 b3
    rfl h3 (by simp) (by simp [he])
  have c4 := processButtons_store
    ⟨sc, ((ec.set 0 (b1 + 1)).set 1 (b2 + 1)).set 2 (b3 + 1), 3, false, sn, w,
      toggleLED (toggleLED (toggleLED p b1) b2) b3⟩ i4 b4
    rfl h4 (by simp) (by simp [he])
  rw [runCalls_cons _ _ _ _ _ c1, runCalls_cons _ _ _ _ _ c2, runCalls_cons _ _ _ _ _ c3,
    runCalls_cons _ _ _ _ _ c4]
  cases runCalls _ rest with
  | none => rfl
  | some r => rfl

/-- The buffer after five stores into a five-element array. -/
theorem set_five (l : List Nat) (h : l.length = 5) (v0 v1 v2 v3 v4 : Nat) :
    ((((l.set 0 v0).set 1 v1).set 2 v2).set 3 v3).set 4 v4 = [v0, v1, v2, v3, v4] := by
  obtain ⟨a, b, c, d, e, rfl⟩ := length_five h
  rfl

/-- Five presses from fill count 0 in Verify mode (reset button not pressed on the fifth call). -/
theorem runCalls_verify_five (s : State) (i1 i2 i3 i4 i5 : Inputs) (b1 b2 b3 b4 b5 : Nat)
    (hwf : s.WF) (hw : s.waitForNewCode = false) (hr : s.resetButtonActive = false)
    (hk : s.codeIndex = 0)
    (h1 : firstPressed i1 = some b1) (h2 : firstPressed i2 = some b2)
    (h3 : firstPressed i3 = some b3) (h4 : firstPressed i4 = some b4)
    (h5 : firstPressed i5 = some b5) (h55 : readButton i5 5 = false) :
    runCalls s [i1, i2, i3, i4, i5] = some
      (if [b1 + 1, b2 + 1, b3 + 1, b4 + 1, b5 + 1] = s.secretCode then
        ({ s with enteredCode := [0, 0, 0, 0, 0], codeIndex := 0, resetButtonActive := true,
                  ports := (flashLEDs (toggleLED (toggleLED (toggleLED (toggleLED (toggleLED s.ports b1) b2) b3) b4) b5) 2000 1 true).1 },
         [[Event.debounce, Event.toggleLED b1], [Event.debounce, Event.toggleLED b2],
          [Event.debounce, Event.toggleLED b3], [Event.debounce, Event.toggleLED b4],
          [Event.debounce, Event.toggleLED b5, Event.flashLEDs 2000 1 true]])
      else
        ({ s with enteredCode := [0, 0, 0, 0, 0], codeIndex := 0,
                  ports := (rotate (flashLEDs (toggleLED (toggleLED (toggleLED (toggleLED (toggleLED s.ports b1) b2) b3) b4) b5) 250 3 false).1 false).1 },
         [[Event.debounce, Event.toggleLED b1], [Event.debounce, Event.toggleLED b2],
          [Event.debounce, Event.toggleLED b3], [Event.debounce, Event.toggleLED b4],
          [Event.debounce, Event.toggleLED b5, Event.flashLEDs 250 3 false,
           Event.rotate false]])) := by
  have he : s.enteredCode.length = 5 := hwf.2
  rw [runCalls_entry_four s i1 i2 i3 i4 b1 b2 b3 b4 [i5] hr hk he h1 h2 h3 h4]
  have hwf4 : State.WF
      { s with enteredCode :=
                 (((s.enteredCode.set 0 (b1 + 1)).set 1 (b2 + 1)).set 2 (b3 + 1)).set 3 (b4 + 1)
               codeIndex := 4
               ports := toggleLED (toggleLED (toggleLED (toggleLED s.ports b1) b2) b3) b4 } := by
    refine ⟨hwf.1, ?_⟩
    simp only [List.length_set]
    exact hwf.2
  have c5 := processButtons_verify_complete _ i5 b5 hwf4 hw hr h5 h55 rfl
  rw [verifyBlock_complete _ i5 b5 hwf4 h5 rfl] at c5
  simp only [set_five s.enteredCode he] at c5
  by_cases heq : [b1 + 1, b2 + 1, b3 + 1, b4 + 1, b5 + 1] = s.secretCode
  · rw [if_pos heq] at c5
    rw [if_pos heq, runCalls_cons _ _ _ _ _ c5]
    rfl
  · rw [if_neg heq] at c5
    rw [if_neg heq, runCalls_cons _ _ _ _ _ c5]
    rfl

/-- Five presses from fill count 0 in Reprogram mode. -/
theorem runCalls_newCode_five (s : State) (i1 i2 i3 i4 i5 : Inputs) (b1 b2 b3 b4 b5 : Nat)
    (rest : List Inputs)
    (hwf : s.WF) (hw : s.waitForNewCode = true) (hr : s.resetButtonActive = false)
    (hk : s.codeIndex = 0)
    (h1 : firstPressed i1 = some b1) (h2 : firstPressed i2 = some b2)
    (h3 : firstPressed i3 = some b3) (h4 : firstPressed i4 = some b4)
    (h5 : firstPressed i5 = some b5) :
    runCalls s (i1 :: i2 :: i3 :: i4 :: i5 :: rest) =
      match runCalls
          { s with secretCode := [b1 + 1, b2 + 1, b3 + 1, b4 + 1, b5 + 1]
                   enteredCode := [0, 0, 0, 0, 0], codeIndex := 0, waitForNewCode := false
                   ports := (flashLEDs (toggleLED (toggleLED (toggleLED (toggleLED (toggleLED s.ports b1) b2) b3) b4) b5) 2000 1 true).1 } rest with
      | none => none
      | some (s2, logs) =>
        some (s2,
          [Event.debounce, Event.toggleLED b1] :: [Event.debounce, Event.toggleLED b2] ::
          [Event.debounce, Event.toggleLED b3] :: [Event.debounce, Event.toggleLED b4] ::
          [Event.debounce, Event.toggleLED b5, Event.flashLEDs 2000 1 true] :: logs) := by
  have he : s.enteredCode.length = 5 := hwf.2
  rw [runCalls_entry_four s i1 i2 i3 i4 b1 b2 b3 b4 (i5 :: rest) hr hk he h1 h2 h3 h4]
  have hwf4 : State.WF
      { s with enteredCode :=
                 (((s.enteredCode.set 0 (b1 + 1)).set 1 (b2 + 1)).set 2 (b3 + 1)).set 3 (b4 + 1)
               codeIndex := 4
               ports := toggleLED (toggleLED (toggleLED (toggleLED s.ports b1) b2) b3) b4 } := by
    refine ⟨hwf.1, ?_⟩
    simp only [List.length_set]
    exact hwf.2
  have c5 := processButtons_newCode_complete _ i5 b5 hwf4 hw hr h5 rfl
  simp only [set_five s.enteredCode he, FLASH_LONG_DURATION_MS] at c5
  rw [runCalls_cons _ _ _ _ _ c5]
  cases runCalls _ rest with
  | none => rfl
  | some r => rfl

theorem forall2_five {α β : Type} {R : α → β → Prop} {xs : List α} {c1 c2 c3 c4 c5 : β}
    (h : List.Forall₂ R xs [c1, c2, c3, c4, c5]) :
    ∃ x1 x2 x3 x4 x5, xs = [x1, x2, x3, x4, x5] ∧ R x1 c1 ∧ R x2 c2 ∧ R x3 c3 ∧ R x4 c4 ∧
      R x5 c5 := by
  simp only [List.forall₂_cons_right_iff, List.forall₂_nil_right_iff] at h
  obtain ⟨x1, _, r1, ⟨x2, _, r2, ⟨x3, _, r3, ⟨x4, _, r4, ⟨x5, _, r5, rfl, rfl⟩, rfl⟩, rfl⟩, rfl⟩,
    rfl⟩ := h
  exact ⟨x1, x2, x3, x4, x5, rfl, r1, r2, r3, r4, r5⟩

/-! ## The scenarios -/

/-- C2: from a Verify-mode state with fill count 0 whose secret symbols lie in
2..5, five calls of `processButtons`, the i-th with exactly the code button
`secretCode[i] - 1` pressed, end in AwaitReset (`resetButtonActive` set,
`waitForNewCode` clear) with the Success feedback `flashLEDs(2000, 1, true)`
invoked on the fifth call, `secretCode` unchanged, `codeIndex = 0` and the
entry buffer cleared. -/
theorem verify_correct_code_unlocks (s : State) (inps : List Inputs)
    (hwf : s.WF) (hw : s.waitForNewCode = false) (hr : s.resetButtonActive = false)
    (hk : s.codeIndex = 0) (hsym : ∀ c ∈ s.secretCode, c ∈ [2, 3, 4, 5])
    (hp : List.Forall₂ (fun inp c => SinglePress inp (c - 1)) inps s.secretCode) :
    ∃ s1 l1 l2 l3 l4 l5, runCalls s inps = some (s1, [l1, l2, l3, l4, l5]) ∧
      Event.flashLEDs 2000 1 true ∈ l5 ∧
      s1.resetButtonActive = true ∧ s1.waitForNewCode = false ∧
      s1.secretCode = s.secretCode ∧ s1.codeIndex = 0 ∧ s1.enteredCode = [0, 0, 0, 0, 0] := by
  obtain ⟨c1, c2, c3, c4, c5, hsc⟩ := length_five hwf.1
  rw [hsc] at hp hsym
  obtain ⟨i1, i2, i3, i4, i5, rfl, p1, p2, p3, p4, p5⟩ := forall2_five hp
  have fix : ∀ c, c ∈ [c1, c2, c3, c4, c5] → c - 1 + 1 = c := by
    intro c hc
    have := hsym c hc
    simp at this
    omega
  have q1 := firstPressed_of_single p1
  have q2 := firstPressed_of_single p2
  have q3 := firstPressed_of_single p3
  have q4 := firstPressed_of_single p4
  have q5 := firstPressed_of_single p5
  have hrun := runCalls_verify_five s i1 i2 i3 i4 i5 _ _ _ _ _ hwf hw hr hk q1.1 q2.1 q3.1 q4.1
    q5.1 q5.2
  have heq : [c1 - 1 + 1, c2 - 1 + 1, c3 - 1 + 1, c4 - 1 + 1, c5 - 1 + 1] = s.secretCode := by
    rw [hsc, fix c1 (by simp), fix c2 (by simp), fix c3 (by simp), fix c4 (by simp),
      fix c5 (by simp)]
  rw [if_pos heq] at hrun
  exact ⟨_, _, _, _, _, _, hrun, by simp, rfl, hw, rfl, rfl, rfl⟩

/-- C3: from a Verify-mode state with fill count 0, five single code-button
presses whose symbols (button number + 1) differ from `secretCode` in some
position make the fifth call invoke the Failure feedback
`flashLEDs(250, 3, false)`; the Success feedback is invoked in none of the
calls, the mode stays Verify, `secretCode` is unchanged, `codeIndex = 0` and
the entry buffer is cleared. -/
theorem verify_wrong_code_fails (s : State) (inps : List Inputs) (bs : List Nat)
    (hwf : s.WF) (hw : s.waitForNewCode = false) (hr : s.resetButtonActive = false)
    (hk : s.codeIndex = 0) (hlen : bs.length = 5)
    (hp : List.Forall₂ SinglePress inps bs)
    (hne : ∃ k, k < 5 ∧ (bs.map (fun b => b + 1))[k]? ≠ s.secretCode[k]?) :
    ∃ s1 l1 l2 l3 l4 l5, runCalls s inps = some (s1, [l1, l2, l3, l4, l5]) ∧
      Event.flashLEDs 250 3 false ∈ l5 ∧
      (∀ l ∈ [l1, l2, l3, l4, l5], Event.flashLEDs 2000 1 true ∉ l) ∧
      s1.resetButtonActive = false ∧ s1.waitForNewCode = false ∧
      s1.secretCode = s.secretCode ∧ s1.codeIndex = 0 ∧ s1.enteredCode = [0, 0, 0, 0, 0] := by
  obtain ⟨b1, b2, b3, b4, b5, rfl⟩ := length_five hlen
  obtain ⟨i1, i2, i3, i4, i5, rfl, p1, p2, p3, p4, p5⟩ := forall2_five hp
  have q1 := firstPressed_of_single p1
  have q2 := firstPressed_of_single p2
  have q3 := firstPressed_of_single p3
  have q4 := firstPressed_of_single p4
  have q5 := firstPressed_of_single p5
  have hrun := runCalls_verify_five s i1 i2 i3 i4 i5 _ _ _ _ _ hwf hw hr hk q1.1 q2.1 q3.1 q4.1
    q5.1 q5.2
  have hneq : ¬ ([b1 + 1, b2 + 1, b3 + 1, b4 + 1, b5 + 1] = s.secretCode) := by
    intro h
    obtain ⟨k, _, hk2⟩ := hne
    apply hk2
    rw [← h]
    rfl
  rw [if_neg hneq] at hrun
  exact ⟨_, _, _, _, _, _, hrun, by simp, by simp, hr, hw, rfl, rfl, rfl⟩

/-- C5: from a Reprogram-mode state with fill count 0, five single
code-button presses `b1..b5` leave `secretCode = [b1+1, .., b5+1]`, both mode
flags clear (Verify), `codeIndex = 0`; the Success feedback
`flashLEDs(2000, 1, true)` is invoked on the fifth call and on none of the
first four. -/
theorem reprogram_stores_new_code (s : State) (inps : List Inputs) (bs : List Nat)
    (hwf : s.WF) (hw : s.waitForNewCode = true) (hr : s.resetButtonActive = false)
    (hk : s.codeIndex = 0) (hlen : bs.length = 5)
    (hp : List.Forall₂ SinglePress inps bs) :
    ∃ s1 l1 l2 l3 l4 l5, runCalls s inps = some (s1, [l1, l2, l3, l4, l5]) ∧
      s1.secretCode = bs.map (fun b => b + 1) ∧
      s1.waitForNewCode = false ∧ s1.resetButtonActive = false ∧
      Event.flashLEDs 2000 1 true ∈ l5 ∧
      (∀ l ∈ [l1, l2, l3, l4], Event.flashLEDs 2000 1 true ∉ l) ∧
      s1.codeIndex = 0 ∧ s1.enteredCode = [0, 0, 0, 0, 0] := by
  obtain ⟨b1, b2, b3, b4, b5, rfl⟩ := length_five hlen
  obtain ⟨i1, i2, i3, i4, i5, rfl, p1, p2, p3, p4, p5⟩ := forall2_five hp
  have q1 := firstPressed_of_single p1
  have q2 := firstPressed_of_single p2
  have q3 := firstPressed_of_single p3
  have q4 := firstPressed_of_single p4
  have q5 := firstPressed_of_single p5
  have hrun := runCalls_newCode_five s i1 i2 i3 i4 i5 _ _ _ _ _ [] hwf hw hr hk q1.1 q2.1 q3.1
    q4.1 q5.1
  simp only [runCalls] at hrun
  exact ⟨_, _, _, _, _, _, hrun, rfl, rfl, hr, by simp, by simp, rfl, rfl⟩

/-! ## Witnesses of the scenarios -/

theorem verify_correct_code_unlocks_witness :
    startup.WF ∧ startup.waitForNewCode = false ∧ startup.resetButtonActive = false ∧
    startup.codeIndex = 0 ∧ (∀ c ∈ startup.secretCode, c ∈ [2, 3, 4, 5]) ∧
    List.Forall₂ (fun inp c => SinglePress inp (c - 1))
      [⟨12, 5⟩, ⟨12, 5⟩, ⟨12, 5⟩, ⟨12, 5⟩, ⟨12, 5⟩] startup.secretCode ∧
    ∃ s1 l1 l2 l3 l4 l5,
      runCalls startup [⟨12, 5⟩, ⟨12, 5⟩, ⟨12, 5⟩, ⟨12, 5⟩, ⟨12, 5⟩] =
        some (s1, [l1, l2, l3, l4, l5]) ∧
      Event.flashLEDs 2000 1 true ∈ l5 ∧
      s1.resetButtonActive = true ∧ s1.waitForNewCode = false ∧
      s1.secretCode = startup.secretCode ∧ s1.codeIndex = 0 ∧
      s1.enteredCode = [0, 0, 0, 0, 0] :=
  ⟨by decide, rfl, rfl, rfl, by decide, by decide,
    verify_correct_code_unlocks startup [⟨12, 5⟩, ⟨12, 5⟩, ⟨12, 5⟩, ⟨12, 5⟩, ⟨12, 5⟩]
      (by decide) rfl rfl rfl (by decide) (by decide)⟩

theorem verify_wrong_code_fails_witness :
    startup.WF ∧ startup.waitForNewCode = false ∧ startup.resetButtonActive = false ∧
    startup.codeIndex = 0 ∧ [1, 1, 1, 1, 2].length = 5 ∧
    List.Forall₂ SinglePress [⟨12, 5⟩, ⟨12, 5⟩, ⟨12, 5⟩, ⟨12, 5⟩, ⟨10, 5⟩] [1, 1, 1, 1, 2] ∧
    (∃ k, k < 5 ∧ ([1, 1, 1, 1, 2].map (fun b => b + 1))[k]? ≠ startup.secretCode[k]?) ∧
    ∃ s1 l1 l2 l3 l4 l5,
      runCalls startup [⟨12, 5⟩, ⟨12, 5⟩, ⟨12, 5⟩, ⟨12, 5⟩, ⟨10, 5⟩] =
        some (s1, [l1, l2, l3, l4, l5]) ∧
      Event.flashLEDs 250 3 false ∈ l5 ∧
      (∀ l ∈ [l1, l2, l3, l4, l5], Event.flashLEDs 2000 1 true ∉ l) ∧
      s1.resetButtonActive = false ∧ s1.waitForNewCode = false ∧
      s1.secretCode = startup.secretCode ∧ s1.codeIndex = 0 ∧
      s1.enteredCode = [0, 0, 0, 0, 0] :=
  ⟨by decide, rfl, rfl, rfl, rfl, by decide, ⟨4, by decide, by decide⟩,
    verify_wrong_code_fails startup [⟨12, 5⟩, ⟨12, 5⟩, ⟨12, 5⟩, ⟨12, 5⟩, ⟨10, 5⟩]
      [1, 1, 1, 1, 2] (by decide) rfl rfl rfl rfl (by decide) ⟨4, by decide, by decide⟩⟩

theorem reprogram_stores_new_code_witness :
    State.WF ⟨[0, 0, 0, 0, 0], [0, 0, 0, 0, 0], 0, false, true, true, ⟨224, 2⟩⟩ ∧
    [2, 3, 4, 2, 1].length = 5 ∧
    List.Forall₂ SinglePress [⟨10, 5⟩, ⟨6, 5⟩, ⟨14, 4⟩, ⟨10, 5⟩, ⟨12, 5⟩] [2, 3, 4, 2, 1] ∧
    ∃ s1 l1 l2 l3 l4 l5,
      runCalls ⟨[0, 0, 0, 0, 0], [0, 0, 0, 0, 0], 0, false, true, true, ⟨224, 2⟩⟩
        [⟨10, 5⟩, ⟨6, 5⟩, ⟨14, 4⟩, ⟨10, 5⟩, ⟨12, 5⟩] = some (s1, [l1, l2, l3, l4, l5]) ∧
      s1.secretCode = [2, 3, 4, 2, 1].map (fun b => b + 1) ∧
      s1.waitForNewCode = false ∧ s1.resetButtonActive = false ∧
      Event.flashLEDs 2000 1 true ∈ l5 ∧
      (∀ l ∈ [l1, l2, l3, l4], Event.flashLEDs 2000 1 true ∉ l) ∧
      s1.codeIndex = 0 ∧ s1.enteredCode = [0, 0, 0, 0, 0] :=
  ⟨by decide, rfl, by decide,
    reprogram_stores_new_code ⟨[0, 0, 0, 0, 0], [0, 0, 0, 0, 0], 0, false, true, true, ⟨224, 2⟩⟩
      [⟨10, 5⟩, ⟨6, 5⟩, ⟨14, 4⟩, ⟨10, 5⟩, ⟨12, 5⟩] [2, 3, 4, 2, 1]
      (by decide) rfl rfl rfl rfl (by decide)⟩

/-! ## Reachable states -/

/-- The call that stores the fifth symbol in Verify mode while the reset
button reads pressed as well: on a match the reset block runs in the same call. -/
theorem processButtons_verify_complete_reset (s : State) (inp : Inputs) (b : Nat)
    (hwf : s.WF) (hw : s.waitForNewCode = false) (hr : s.resetButtonActive = false)
    (hb : firstPressed inp = some b) (h5 : readButton inp 5 = true) (hk : s.codeIndex = 4) :
    processButtons s inp = some
      (if s.enteredCode.set 4 (b + 1) = s.secretCode then
        ({ s with secretCode := [0, 0, 0, 0, 0]
                  enteredCode := [0, 0, 0, 0, 0]
                  codeIndex := 0
                  resetButtonActive := false
                  waitForNewCode := true
                  ports := (flashLEDs (flashLEDs (toggleLED s.ports b) FLASH_LONG_DURATION_MS 1
                              true).1 FLASH_SHORT_DURATION_MS 3 false).1 },
         [Event.debounce, Event.toggleLED b, Event.flashLEDs FLASH_LONG_DURATION_MS 1 true,
          Event.debounce, Event.flashLEDs FLASH_SHORT_DURATION_MS 3 false])
      else
        ({ s with enteredCode := [0, 0, 0, 0, 0]
                  codeIndex := 0
                  ports := (rotate (flashLEDs (toggleLED s.ports b) FLASH_SHORT_DURATION_MS 3 false).1
                              false).1 },
         [Event.debounce, Event.toggleLED b, Event.flashLEDs FLASH_SHORT_DURATION_MS 3 false,
          Event.rotate false])) := by
  rw [processButtons, verifyBlock_complete s inp b hwf hb hk]
  by_cases heq : s.enteredCode.set 4 (b + 1) = s.secretCode
  · have hrb := resetBlock_eq
      { s with enteredCode := [0, 0, 0, 0, 0]
               codeIndex := 0
               resetButtonActive := true
               ports := (flashLEDs (toggleLED s.ports b) FLASH_LONG_DURATION_MS 1 true).1 } hwf.1
    simp only [hw] at hrb
    simp [hw, hr, h5, heq, hrb]
  · simp [hw, hr, h5, heq]

theorem Inv_startup : Inv startup := by decide

/-- A call without any effect: no code button handled and no reset. -/
theorem processButtons_idle (s : State) (inp : Inputs)
    (h : (s.resetButtonActive = true ∧ s.waitForNewCode = false ∧ readButton inp 5 = false) ∨
         (s.resetButtonActive = false ∧ firstPressed inp = none)) :
    processButtons s inp = some (s, []) := by
  rcases h with ⟨hr, hw, h5⟩ | ⟨hr, hfp⟩
  · simp [processButtons, hr, hw, h5]
  · cases hw : s.waitForNewCode <;>
      simp [processButtons, verifyBlock, newCodeBlock, hr, hw, hfp]

/-- The invariant holds for a state whose entry buffer was just cleared. -/
theorem Inv_cleared (s : State) (hs : s.secretCode.length = 5)
    (he : s.enteredCode = [0, 0, 0, 0, 0]) (hk : s.codeIndex = 0)
    (hra : s.resetButtonActive = true → s.waitForNewCode = false)
    (hsec : s.waitForNewCode = false → ∀ c ∈ s.secretCode, 2 ≤ c ∧ c ≤ 5) : Inv s := by
  refine ⟨⟨hs, by rw [he]; rfl⟩, by omega, ?_, ?_, fun h => ⟨hra h, hk⟩, hsec⟩
  · rw [he, hk]; simp
  · rw [he, hk]; simp

/-- The invariant survives a call that stores one of the first four symbols. -/
theorem Inv_store (s : State) (b : Nat) (hinv : Inv s) (hr : s.resetButtonActive = false)
    (hb : 1 ≤ b ∧ b ≤ 4) (hk : s.codeIndex < 4) (p : Ports) :
    Inv { s with enteredCode := s.enteredCode.set s.codeIndex (b + 1)
                 ports := p
                 codeIndex := s.codeIndex + 1 } := by
  obtain ⟨sc, ec, ci, ra, sn, w, q⟩ := s
  obtain ⟨⟨hs, he⟩, _, hz, hv, _, hsec⟩ := hinv
  obtain ⟨e0, e1, e2, e3, e4, rfl⟩ := length_five he
  simp only at hr hk hz hv hsec hs
  subst hr
  refine ⟨⟨hs, by simp [MAX_CODE_LENGTH]⟩, by simp only; omega, ?_, ?_, by simp, hsec⟩
  · have hci : ci = 0 ∨ ci = 1 ∨ ci = 2 ∨ ci = 3 := by omega
    rcases hci with rfl | rfl | rfl | rfl <;> simp_all
  · have hci : ci = 0 ∨ ci = 1 ∨ ci = 2 ∨ ci = 3 := by omega
    rcases hci with rfl | rfl | rfl | rfl <;> simp_all <;> omega

/-- The secret written by a completed Reprogram entry holds symbols in 2..5. -/
theorem Inv_new_secret (s : State) (b : Nat) (hinv : Inv s) (hk : s.codeIndex = 4)
    (hb : 1 ≤ b ∧ b ≤ 4) : ∀ c ∈ s.enteredCode.set 4 (b + 1), 2 ≤ c ∧ c ≤ 5 := by
  obtain ⟨⟨_, he⟩, _, _, hv, _, _⟩ := hinv
  obtain ⟨e0, e1, e2, e3, e4, hec⟩ := length_five he
  rw [hec, hk] at hv
  rw [hec]
  simp at hv ⊢
  omega

/-- Every call of `processButtons` preserves the invariant. -/
theorem Inv_step (s s1 : State) (inp : Inputs) (log : List Event) (hinv : Inv s)
    (h : processButtons s inp = some (s1, log)) : Inv s1 := by
  have hwf : s.WF := hinv.1
  have hk5 : s.codeIndex < 5 := hinv.2.1
  have hra := hinv.2.2.2.2.1
  have hsec := hinv.2.2.2.2.2
  cases hr : s.resetButtonActive
  · cases hfp : firstPressed inp with
    | none =>
      rw [processButtons_idle s inp (Or.inr ⟨hr, hfp⟩)] at h
      simp only [Option.some.injEq, Prod.mk.injEq] at h
      rw [← h.1]; exact hinv
    | some b =>
      have hbm := (firstPressed_mem hfp).1
      have hb14 : 1 ≤ b ∧ b ≤ 4 := by omega
      by_cases hk4 : s.codeIndex < 4
      · rw [processButtons_store s inp b hr hfp hk4 (by rw [hwf.2]; simp [MAX_CODE_LENGTH]; omega)] at h
        simp only [Option.some.injEq, Prod.mk.injEq] at h
        rw [← h.1]
        exact Inv_store s b hinv hr hb14 hk4 _
      · have hk : s.codeIndex = 4 := by omega
        cases hw : s.waitForNewCode
        · have hsv := hsec hw
          cases h5 : readButton inp 5
          · rw [processButtons_verify_complete s inp b hwf hw hr hfp h5 hk,
              verifyBlock_complete s inp b hwf hfp hk] at h
            simp only [Option.some.injEq] at h
            by_cases heq : s.enteredCode.set 4 (b + 1) = s.secretCode
            · rw [if_pos heq] at h
              simp only [Prod.mk.injEq] at h
              rw [← h.1]
              exact Inv_cleared _ hwf.1 rfl rfl (fun _ => hw) (fun _ => hsv)
            · rw [if_neg heq] at h
              simp only [Prod.mk.injEq] at h
              rw [← h.1]
              exact Inv_cleared _ hwf.1 rfl rfl (fun _ => hw) (fun _ => hsv)
          · rw [processButtons_verify_complete_reset s inp b hwf hw hr hfp h5 hk] at h
            simp only [Option.some.injEq] at h
            by_cases heq : s.enteredCode.set 4 (b + 1) = s.secretCode
            · rw [if_pos heq] at h
              simp only [Prod.mk.injEq] at h
              rw [← h.1]
              exact Inv_cleared _ rfl rfl rfl (by simp) (by simp)
            · rw [if_neg heq] at h
              simp only [Prod.mk.injEq] at h
              rw [← h.1]
              exact Inv_cleared _ hwf.1 rfl rfl (fun _ => hw) (fun _ => hsv)
        · rw [processButtons_newCode_complete s inp b hwf hw hr hfp hk] at h
          simp only [Option.some.injEq, Prod.mk.injEq] at h
          rw [← h.1]
          refine Inv_cleared _ ?_ rfl rfl (fun _ => rfl) (fun _ => Inv_new_secret s b hinv hk hb14)
          simp only [List.length_set]
          exact hwf.2
  · obtain ⟨hw, hk⟩ := hra hr
    cases h5 : readButton inp 5
    · rw [processButtons_idle s inp (Or.inl ⟨hr, hw, h5⟩)] at h
      simp only [Option.some.injEq, Prod.mk.injEq] at h
      rw [← h.1]; exact hinv
    · rw [processButtons_reset s inp hr h5 hwf.1] at h
      simp only [Option.some.injEq, Prod.mk.injEq] at h
      rw [← h.1]
      obtain ⟨_, _, hz, hv, _, _⟩ := hinv
      refine ⟨⟨rfl, hwf.2⟩, by simp, ?_, ?_, by simp, by simp⟩
      · rw [hk] at hz; exact hz
      · simp

/-- Every reachable state satisfies the invariant. -/
theorem Reachable.inv {s : State} (h : Reachable s) : Inv s := by
  induction h with
  | start => exact Inv_startup
  | call inp _ hstep ih => exact Inv_step _ _ inp _ ih hstep

/-- A run of calls leads from reachable states to reachable states. -/
theorem Reachable.runCalls {s s1 : State} {logs : List (List Event)} (inps : List Inputs)
    (h : Reachable s) (hrun : Lockbox.runCalls s inps = some (s1, logs)) : Reachable s1 := by
  induction inps generalizing s logs with
  | nil =>
    simp only [Lockbox.runCalls, Option.some.injEq, Prod.mk.injEq] at hrun
    rw [← hrun.1]; exact h
  | cons inp rest ih =>
    simp only [Lockbox.runCalls] at hrun
    cases hp : processButtons s inp with
    | none => rw [hp] at hrun; simp at hrun
    | some r =>
      obtain ⟨s2, l⟩ := r
      rw [hp] at hrun
      simp only at hrun
      cases hrest : Lockbox.runCalls s2 rest with
      | none => rw [hrest] at hrun; simp at hrun
      | some r2 =>
        obtain ⟨s3, ls⟩ := r2
        rw [hrest] at hrun
        simp only [Option.some.injEq, Prod.mk.injEq] at hrun
        rw [hrun.1] at hrest
        exact ih (Reachable.call inp h hp) hrest

/-- In a reachable AwaitReset state nothing is entered: the buffer is all 0. -/
theorem Reachable.awaitReset_cleared {s : State} (h : Reachable s)
    (hr : s.resetButtonActive = true) :
    s.waitForNewCode = false ∧ s.codeIndex = 0 ∧ s.enteredCode = [0, 0, 0, 0, 0] := by
  obtain ⟨⟨_, he⟩, _, hz, _, hra, _⟩ := h.inv
  obtain ⟨hw, hk⟩ := hra hr
  obtain ⟨e0, e1, e2, e3, e4, hec⟩ := length_five he
  rw [hec, hk] at hz
  simp at hz
  refine ⟨hw, hk, ?_⟩
  rw [hec]
  simp [hz]

/-- The state after the default code was entered at startup is reachable. -/
theorem reachable_unlocked :
    Reachable ⟨[2, 2, 2, 2, 2], [0, 0, 0, 0, 0], 0, true, true, false, ⟨224, 2⟩⟩ := by
  have hrun : runCalls startup [⟨12, 5⟩, ⟨12, 5⟩, ⟨12, 5⟩, ⟨12, 5⟩, ⟨12, 5⟩] =
      some (⟨[2, 2, 2, 2, 2], [0, 0, 0, 0, 0], 0, true, true, false, ⟨224, 2⟩⟩,
        [[Event.debounce, Event.toggleLED 1], [Event.debounce, Event.toggleLED 1],
         [Event.debounce, Event.toggleLED 1], [Event.debounce, Event.toggleLED 1],
         [Event.debounce, Event.toggleLED 1, Event.flashLEDs 2000 1 true]]) := by decide
  exact Reachable.runCalls _ Reachable.start hrun

/-- C4: in a reachable AwaitReset state a call with the reset button pressed
sets the five `secretCode` entries to 0, sets `waitForNewCode`, clears
`resetButtonActive`, invokes `flashLEDs(250, 3, false)` and leaves the entry
cleared: `codeIndex = 0` and every `enteredCode` slot 0. -/
theorem reset_enters_reprogram (s : State) (inp : Inputs) (hreach : Reachable s)
    (hr : s.resetButtonActive = true) (h5 : readButton inp 5 = true) :
    ∃ s1 log, processButtons s inp = some (s1, log) ∧
      s1.secretCode = [0, 0, 0, 0, 0] ∧ s1.waitForNewCode = true ∧
      s1.resetButtonActive = false ∧ Event.flashLEDs 250 3 false ∈ log ∧
      s1.codeIndex = 0 ∧ s1.enteredCode = [0, 0, 0, 0, 0] := by
  have hwf : s.WF := hreach.inv.1
  obtain ⟨_, _, he⟩ := hreach.awaitReset_cleared hr
  refine ⟨_, _, processButtons_reset s inp hr h5 hwf.1, rfl, rfl, rfl, ?_, rfl, he⟩
  simp [FLASH_SHORT_DURATION_MS]

theorem reset_enters_reprogram_witness :
    Reachable ⟨[2, 2, 2, 2, 2], [0, 0, 0, 0, 0], 0, true, true, false, ⟨224, 2⟩⟩ ∧
    readButton ⟨14, 1⟩ 5 = true ∧
    ∃ s1 log,
      processButtons ⟨[2, 2, 2, 2, 2], [0, 0, 0, 0, 0], 0, true, true, false, ⟨224, 2⟩⟩
        ⟨14, 1⟩ = some (s1, log) ∧
      s1.secretCode = [0, 0, 0, 0, 0] ∧ s1.waitForNewCode = true ∧
      s1.resetButtonActive = false ∧ Event.flashLEDs 250 3 false ∈ log ∧
      s1.codeIndex = 0 ∧ s1.enteredCode = [0, 0, 0, 0, 0] :=
  ⟨reachable_unlocked, by decide,
    reset_enters_reprogram ⟨[2, 2, 2, 2, 2], [0, 0, 0, 0, 0], 0, true, true, false, ⟨224, 2⟩⟩
      ⟨14, 1⟩ reachable_unlocked rfl (by decide)⟩

/-- C6: from a reachable AwaitReset state, one reset-button press followed by
the five single presses `c` installs the symbols of `c` as the secret; five
further single presses `d` then give the Success feedback and AwaitReset when
`d = c`, and the Failure feedback with the mode still Verify when `d` differs
from `c`. In particular the old secret, entered as `d`, does not unlock unless
it is the code of `c`. -/
theorem reprogram_verify_round_trip (s : State) (r : Inputs) (cin din : List Inputs)
    (c d : List Nat) (hreach : Reachable s) (hr : s.resetButtonActive = true)
    (h5 : readButton r 5 = true) (hc : c.length = 5) (hd : d.length = 5)
    (hpc : List.Forall₂ SinglePress cin c) (hpd : List.Forall₂ SinglePress din d) :
    ∃ s1 logs l, runCalls s (r :: (cin ++ din)) = some (s1, logs ++ [l]) ∧ logs.length = 10 ∧
      s1.secretCode = c.map (fun b => b + 1) ∧
      (d = c → Event.flashLEDs 2000 1 true ∈ l ∧
        s1.resetButtonActive = true ∧ s1.waitForNewCode = false) ∧
      (d ≠ c → Event.flashLEDs 250 3 false ∈ l ∧ Event.flashLEDs 2000 1 true ∉ l ∧
        s1.resetButtonActive = false ∧ s1.waitForNewCode = false) ∧
      (d.map (fun b => b + 1) = s.secretCode → c.map (fun b => b + 1) ≠ s.secretCode →
        Event.flashLEDs 2000 1 true ∉ l ∧ s1.resetButtonActive = false) := by
  have hwf : s.WF := hreach.inv.1
  obtain ⟨c1, c2, c3, c4, c5, rfl⟩ := length_five hc
  obtain ⟨d1, d2, d3, d4, d5, rfl⟩ := length_five hd
  obtain ⟨i1, i2, i3, i4, i5, rfl, p1, p2, p3, p4, p5⟩ := forall2_five hpc
  obtain ⟨j1, j2, j3, j4, j5, rfl, q1, q2, q3, q4, q5⟩ := forall2_five hpd
  have hreset := processButtons_reset s r hr h5 hwf.1
  have hnew := runCalls_newCode_five
    { s with secretCode := [0, 0, 0, 0, 0], codeIndex := 0, resetButtonActive := false
             waitForNewCode := true
             ports := (flashLEDs s.ports FLASH_SHORT_DURATION_MS 3 false).1 }
    i1 i2 i3 i4 i5 c1 c2 c3 c4 c5 [j1, j2, j3, j4, j5] ⟨rfl, hwf.2⟩ rfl rfl rfl
    (firstPressed_of_single p1).1 (firstPressed_of_single p2).1 (firstPressed_of_single p3).1
    (firstPressed_of_single p4).1 (firstPressed_of_single p5).1
  have hver := runCalls_verify_five
    { s with secretCode := [c1 + 1, c2 + 1, c3 + 1, c4 + 1, c5 + 1]
             enteredCode := [0, 0, 0, 0, 0], codeIndex := 0, resetButtonActive := false
             waitForNewCode := false
             ports := (flashLEDs (toggleLED (toggleLED (toggleLED (toggleLED (toggleLED
               (flashLEDs s.ports FLASH_SHORT_DURATION_MS 3 false).1 c1) c2) c3) c4) c5)
               2000 1 true).1 }
    j1 j2 j3 j4 j5 d1 d2 d3 d4 d5 ⟨rfl, rfl⟩ rfl rfl rfl
    (firstPressed_of_single q1).1 (firstPressed_of_single q2).1 (firstPressed_of_single q3).1
    (firstPressed_of_single q4).1 (firstPressed_of_single q5).1 (firstPressed_of_single q5).2
  simp only [List.cons_append, List.nil_append]
  rw [runCalls_cons _ _ _ _ _ hreset, hnew, hver]
  by_cases heq : [d1 + 1, d2 + 1, d3 + 1, d4 + 1, d5 + 1] = [c1 + 1, c2 + 1, c3 + 1, c4 + 1, c5 + 1]
  · have hdc : [d1, d2, d3, d4, d5] = [c1, c2, c3, c4, c5] := by
      simp only [List.cons.injEq, Nat.add_right_cancel_iff] at heq
      simp [heq]
    simp only [if_pos heq]
    refine ⟨_, [_, _, _, _, _, _, _, _, _, _], _, rfl, rfl, rfl, ?_, ?_, ?_⟩
    · intro _; simp
    · intro hne; exact absurd hdc hne
    · intro hold hcne
      exfalso; apply hcne
      simp only [List.map] at hold ⊢
      rw [← heq]; exact hold
  · have hdc : [d1, d2, d3, d4, d5] ≠ [c1, c2, c3, c4, c5] := by
      intro h
      apply heq
      simp only [List.cons.injEq] at h
      simp [h]
    simp only [if_neg heq]
    refine ⟨_, [_, _, _, _, _, _, _, _, _, _], _, rfl, rfl, rfl, ?_, ?_, ?_⟩
    · intro h; exact absurd h hdc
    · intro _; simp [hr]
    · intro _ _; simp [hr]

theorem reprogram_verify_round_trip_witness :
    Reachable ⟨[2, 2, 2, 2, 2], [0, 0, 0, 0, 0], 0, true, true, false, ⟨224, 2⟩⟩ ∧
    readButton ⟨14, 1⟩ 5 = true ∧
    List.Forall₂ SinglePress [⟨10, 5⟩, ⟨6, 5⟩, ⟨14, 4⟩, ⟨10, 5⟩, ⟨12, 5⟩] [2, 3, 4, 2, 1] ∧
    List.Forall₂ SinglePress [⟨12, 5⟩, ⟨12, 5⟩, ⟨12, 5⟩, ⟨12, 5⟩, ⟨12, 5⟩] [1, 1, 1, 1, 1] ∧
    ∃ s1 logs l,
      runCalls ⟨[2, 2, 2, 2, 2], [0, 0, 0, 0, 0], 0, true, true, false, ⟨224, 2⟩⟩
        (⟨14, 1⟩ :: ([⟨10, 5⟩, ⟨6, 5⟩, ⟨14, 4⟩, ⟨10, 5⟩, ⟨12, 5⟩] ++
          [⟨12, 5⟩, ⟨12, 5⟩, ⟨12, 5⟩, ⟨12, 5⟩, ⟨12, 5⟩])) = some (s1, logs ++ [l]) ∧
      logs.length = 10 ∧
      s1.secretCode = [2, 3, 4, 2, 1].map (fun b => b + 1) ∧
      ([1, 1, 1, 1, 1] = [2, 3, 4, 2, 1] → Event.flashLEDs 2000 1 true ∈ l ∧
        s1.resetButtonActive = true ∧ s1.waitForNewCode = false) ∧
      ([1, 1, 1, 1, 1] ≠ [2, 3, 4, 2, 1] → Event.flashLEDs 250 3 false ∈ l ∧
        Event.flashLEDs 2000 1 true ∉ l ∧
        s1.resetButtonActive = false ∧ s1.waitForNewCode = false) ∧
      ([1, 1, 1, 1, 1].map (fun b => b + 1) =
          (State.mk [2, 2, 2, 2, 2] [0, 0, 0, 0, 0] 0 true true false ⟨224, 2⟩).secretCode →
        [2, 3, 4, 2, 1].map (fun b => b + 1) ≠
          (State.mk [2, 2, 2, 2, 2] [0, 0, 0, 0, 0] 0 true true false ⟨224, 2⟩).secretCode →
        Event.flashLEDs 2000 1 true ∉ l ∧ s1.resetButtonActive = false) :=
  ⟨reachable_unlocked, by decide, by decide, by decide,
    reprogram_verify_round_trip
      ⟨[2, 2, 2, 2, 2], [0, 0, 0, 0, 0], 0, true, true, false, ⟨224, 2⟩⟩ ⟨14, 1⟩
      [⟨10, 5⟩, ⟨6, 5⟩, ⟨14, 4⟩, ⟨10, 5⟩, ⟨12, 5⟩] [⟨12, 5⟩, ⟨12, 5⟩, ⟨12, 5⟩, ⟨12, 5⟩, ⟨12, 5⟩]
      [2, 3, 4, 2, 1] [1, 1, 1, 1, 1] reachable_unlocked rfl (by decide) rfl rfl
      (by decide) (by decide)⟩

/-! ## Ignored presses -/

/-- C7: in Verify mode or in Reprogram mode a call in which no code button
reads pressed changes nothing, whatever the reset button (button 5) reads, so
in particular when only the reset button reads pressed: the state, output
registers included, is the same after the call and no routine (debounce,
toggle, feedback) is invoked. -/
theorem reset_ignored_outside_awaitReset (s : State) (inp : Inputs)
    (hmode : (s.resetButtonActive = false ∧ s.waitForNewCode = false) ∨
             (s.waitForNewCode = true ∧ s.resetButtonActive = false))
    (hcode : ∀ p ∈ [1, 2, 3, 4], readButton inp p = false) :
    processButtons s inp = some (s, []) := by
  have hr : s.resetButtonActive = false := by
    rcases hmode with h | h
    · exact h.1
    · exact h.2
  have hfp : firstPressed inp = none := by
    simp only [List.mem_cons, List.mem_singleton, forall_eq_or_imp, forall_eq,
      List.not_mem_nil, false_implies, implies_true, and_true] at hcode
    simp [firstPressed, List.find?, hcode]
  exact processButtons_idle s inp (Or.inr ⟨hr, hfp⟩)

theorem reset_ignored_outside_awaitReset_witness :
    ((startup.resetButtonActive = false ∧ startup.waitForNewCode = false) ∨
      (startup.waitForNewCode = true ∧ startup.resetButtonActive = false)) ∧
    (∀ p ∈ [1, 2, 3, 4], readButton ⟨14, 1⟩ p = false) ∧
    readButton ⟨14, 1⟩ 5 = true ∧
    processButtons startup ⟨14, 1⟩ = some (startup, []) :=
  ⟨by decide, by decide, by decide,
    reset_ignored_outside_awaitReset startup ⟨14, 1⟩ (by decide) (by decide)⟩

/-- C8: in AwaitReset mode a call in which the reset button does not read
pressed, whatever code buttons do, changes nothing: the state, output
registers included, is the same after the call and no routine (debounce,
toggle, feedback) is invoked. -/
theorem code_buttons_ignored_in_awaitReset (s : State) (inp : Inputs)
    (hr : s.resetButtonActive = true) (hw : s.waitForNewCode = false)
    (h5 : readButton inp 5 = false) :
    processButtons s inp = some (s, []) :=
  processButtons_idle s inp (Or.inl ⟨hr, hw, h5⟩)

theorem code_buttons_ignored_in_awaitReset_witness :
    readButton ⟨8, 5⟩ 1 = true ∧ readButton ⟨8, 5⟩ 2 = true ∧ readButton ⟨8, 5⟩ 5 = false ∧
    processButtons ⟨[2, 2, 2, 2, 2], [0, 0, 0, 0, 0], 0, true, true, false, ⟨224, 2⟩⟩ ⟨8, 5⟩ =
      some (⟨[2, 2, 2, 2, 2], [0, 0, 0, 0, 0], 0, true, true, false, ⟨224, 2⟩⟩, []) :=
  ⟨by decide, by decide, by decide,
    code_buttons_ignored_in_awaitReset
      ⟨[2, 2, 2, 2, 2], [0, 0, 0, 0, 0], 0, true, true, false, ⟨224, 2⟩⟩ ⟨8, 5⟩ rfl rfl
      (by decide)⟩

/-! ## Storing a symbol and completing a code -/

/-- Presses that do not complete a code, from fill count `k`. -/
theorem runCalls_partial (inps : List Inputs) :
    ∀ (s : State), s.resetButtonActive = false → s.enteredCode.length = 5 →
      s.codeIndex + inps.length < 5 → (∀ inp ∈ inps, firstPressed inp ≠ none) →
      ∃ s1 logs, runCalls s inps = some (s1, logs) ∧
        s1.codeIndex = s.codeIndex + inps.length ∧
        s1.resetButtonActive = s.resetButtonActive ∧ s1.waitForNewCode = s.waitForNewCode ∧
        s1.secretCode = s.secretCode ∧ ∀ l ∈ logs, ∀ e ∈ l, e.isFeedback = false := by
  induction inps with
  | nil =>
    intro s _ _ _ _
    exact ⟨s, [], rfl, rfl, rfl, rfl, rfl, by simp⟩
  | cons inp rest ih =>
    intro s hr he hk hall
    have hk1 : s.codeIndex + (rest.length + 1) < 5 := by simpa using hk
    obtain ⟨b, hb⟩ := Option.ne_none_iff_exists'.mp (hall inp (List.mem_cons_self _ _))
    have hstep := processButtons_store s inp b hr hb (by omega) (by omega)
    obtain ⟨s1, logs, hrun, h1, h2, h3, h4, h5⟩ := ih
      { s with enteredCode := s.enteredCode.set s.codeIndex (b + 1)
               ports := toggleLED s.ports b
               codeIndex := s.codeIndex + 1 }
      hr (by simp only [List.length_set]; exact he) (by simp only; omega)
      (fun i hi => hall i (List.mem_cons_of_mem _ hi))
    refine ⟨s1, [Event.debounce, Event.toggleLED b] :: logs, ?_, ?_, h2, h3, h4, ?_⟩
    · rw [runCalls_cons _ _ _ _ _ hstep, hrun]
    · rw [h1]; simp only [List.length_cons]; omega
    · intro l hl
      rcases List.mem_cons.mp hl with rfl | hl
      · intro e he
        simp only [List.mem_cons, List.mem_singleton, List.not_mem_nil, or_false] at he
        rcases he with rfl | rfl <;> rfl
      · exact h5 l hl

/-- C9 (amended): in Verify or Reprogram mode with `codeIndex = k < 4`, a call
in which `b` is the lowest-numbered code button that reads pressed (whatever
the other buttons read) stores the symbol `b + 1` at `enteredCode[k]`, sets
`codeIndex` to `k + 1`, leaves `resetButtonActive`, `waitForNewCode` and
`secretCode` unchanged and invokes no feedback; hence a sequence of presses
that stays below five symbols (from fill count 0: fewer than five presses)
changes neither the mode nor the secret and produces no feedback. -/
theorem store_lowest_pressed (s : State) (inp : Inputs) (b : Nat) (inps : List Inputs)
    (hr : s.resetButtonActive = false) (he : s.enteredCode.length = 5)
    (hb : firstPressed inp = some b) (hk : s.codeIndex < 4)
    (hlen : s.codeIndex + inps.length < 5) (hall : ∀ i ∈ inps, firstPressed i ≠ none) :
    (∃ s1 log, processButtons s inp = some (s1, log) ∧
        s1.enteredCode = s.enteredCode.set s.codeIndex (b + 1) ∧
        s1.enteredCode[s.codeIndex]? = some (b + 1) ∧
        s1.codeIndex = s.codeIndex + 1 ∧
        s1.resetButtonActive = s.resetButtonActive ∧ s1.waitForNewCode = s.waitForNewCode ∧
        s1.secretCode = s.secretCode ∧ ∀ e ∈ log, e.isFeedback = false) ∧
    (∃ s1 logs, runCalls s inps = some (s1, logs) ∧
        s1.codeIndex = s.codeIndex + inps.length ∧
        s1.resetButtonActive = s.resetButtonActive ∧ s1.waitForNewCode = s.waitForNewCode ∧
        s1.secretCode = s.secretCode ∧ ∀ l ∈ logs, ∀ e ∈ l, e.isFeedback = false) := by
  constructor
  · refine ⟨_, _, processButtons_store s inp b hr hb hk (by omega), rfl, ?_, rfl, rfl, rfl, rfl, ?_⟩
    · simp only
      rw [List.getElem?_set_self (by omega)]
    · intro e hmem
      simp only [List.mem_cons, List.mem_singleton, List.not_mem_nil, or_false] at hmem
      rcases hmem with rfl | rfl <;> rfl
  · exact runCalls_partial inps s hr he hlen hall

theorem store_lowest_pressed_witness :
    startup.resetButtonActive = false ∧ startup.enteredCode.length = 5 ∧
    firstPressed ⟨8, 5⟩ = some 1 ∧ startup.codeIndex < 4 ∧
    startup.codeIndex + [(⟨8, 5⟩ : Inputs), ⟨12, 5⟩, ⟨10, 5⟩, ⟨6, 5⟩].length < 5 ∧
    (∀ i ∈ [(⟨8, 5⟩ : Inputs), ⟨12, 5⟩, ⟨10, 5⟩, ⟨6, 5⟩], firstPressed i ≠ none) ∧
    (∃ s1 log, processButtons startup ⟨8, 5⟩ = some (s1, log) ∧
        s1.enteredCode = startup.enteredCode.set startup.codeIndex (1 + 1) ∧
        s1.enteredCode[startup.codeIndex]? = some (1 + 1) ∧
        s1.codeIndex = startup.codeIndex + 1 ∧
        s1.resetButtonActive = startup.resetButtonActive ∧
        s1.waitForNewCode = startup.waitForNewCode ∧
        s1.secretCode = startup.secretCode ∧ ∀ e ∈ log, e.isFeedback = false) ∧
    (∃ s1 logs, runCalls startup [⟨8, 5⟩, ⟨12, 5⟩, ⟨10, 5⟩, ⟨6, 5⟩] = some (s1, logs) ∧
        s1.codeIndex = startup.codeIndex + [(⟨8, 5⟩ : Inputs), ⟨12, 5⟩, ⟨10, 5⟩, ⟨6, 5⟩].length ∧
        s1.resetButtonActive = startup.resetButtonActive ∧
        s1.waitForNewCode = startup.waitForNewCode ∧
        s1.secretCode = startup.secretCode ∧ ∀ l ∈ logs, ∀ e ∈ l, e.isFeedback = false) :=
  ⟨rfl, rfl, by decide, by decide, by decide, by decide,
    store_lowest_pressed startup ⟨8, 5⟩ 1 [⟨8, 5⟩, ⟨12, 5⟩, ⟨10, 5⟩, ⟨6, 5⟩] rfl rfl
      (by decide) (by decide) (by decide) (by decide)⟩

/-- C9 as stated fails: at startup (Verify mode, `codeIndex = 0`) with code
buttons 1 and 2 both reading pressed and the reset button not, button `b = 2`
is pressed, yet the call stores the symbol 2 of button 1 at `enteredCode[0]`,
not the symbol `b + 1 = 3`. -/
theorem store_pressed_button_counterexample :
    startup.resetButtonActive = false ∧ startup.waitForNewCode = false ∧
    startup.codeIndex = 0 ∧ readButton ⟨8, 5⟩ 2 = true ∧ readButton ⟨8, 5⟩ 5 = false ∧
    processButtons startup ⟨8, 5⟩ =
      some (⟨[2, 2, 2, 2, 2], [2, 0, 0, 0, 0], 1, false, true, false, ⟨192, 2⟩⟩,
        [Event.debounce, Event.toggleLED 1]) ∧
    ¬ ∃ s1 log, processButtons startup ⟨8, 5⟩ = some (s1, log) ∧
        s1.enteredCode[startup.codeIndex]? = some (2 + 1) := by
  refine ⟨rfl, rfl, rfl, by decide, by decide, by decide, ?_⟩
  rintro ⟨s1, log, h, h3⟩
  have hrun : processButtons startup ⟨8, 5⟩ =
      some (⟨[2, 2, 2, 2, 2], [2, 0, 0, 0, 0], 1, false, true, false, ⟨192, 2⟩⟩,
        [Event.debounce, Event.toggleLED 1]) := by decide
  rw [hrun] at h
  simp only [Option.some.injEq, Prod.mk.injEq] at h
  rw [← h.1] at h3
  exact absurd h3 (by decide)

/-- C10: the call that stores the fifth symbol (fill count 4 and a code button
pressed), in Verify mode with a match or a mismatch or in Reprogram mode,
returns with `codeIndex = 0` and all five `enteredCode` slots equal to 0,
whatever was entered. -/
theorem completion_clears_entry (s : State) (inp : Inputs) (b : Nat)
    (hwf : s.WF) (hr : s.resetButtonActive = false)
    (hb : firstPressed inp = some b) (hk : s.codeIndex = 4) :
    ∃ s1 log, processButtons s inp = some (s1, log) ∧
      s1.codeIndex = 0 ∧ s1.enteredCode = [0, 0, 0, 0, 0] ∧ s1.enteredCode.length = 5 := by
  cases hw : s.waitForNewCode
  · cases h5 : readButton inp 5
    · rw [processButtons_verify_complete s inp b hwf hw hr hb h5 hk,
        verifyBlock_complete s inp b hwf hb hk]
      by_cases heq : s.enteredCode.set 4 (b + 1) = s.secretCode
      · rw [if_pos heq]; exact ⟨_, _, rfl, rfl, rfl, rfl⟩
      · rw [if_neg heq]; exact ⟨_, _, rfl, rfl, rfl, rfl⟩
    · rw [processButtons_verify_complete_reset s inp b hwf hw hr hb h5 hk]
      by_cases heq : s.enteredCode.set 4 (b + 1) = s.secretCode
      · rw [if_pos heq]; exact ⟨_, _, rfl, rfl, rfl, rfl⟩
      · rw [if_neg heq]; exact ⟨_, _, rfl, rfl, rfl, rfl⟩
  · exact ⟨_, _, processButtons_newCode_complete s inp b hwf hw hr hb hk, rfl, rfl, rfl⟩

theorem completion_clears_entry_witness :
    State.WF ⟨[2, 2, 2, 2, 2], [3, 4, 5, 2, 0], 4, false, true, false, ⟨224, 2⟩⟩ ∧
    firstPressed ⟨10, 5⟩ = some 2 ∧
    ∃ s1 log,
      processButtons ⟨[2, 2, 2, 2, 2], [3, 4, 5, 2, 0], 4, false, true, false, ⟨224, 2⟩⟩
        ⟨10, 5⟩ = some (s1, log) ∧
      s1.codeIndex = 0 ∧ s1.enteredCode = [0, 0, 0, 0, 0] ∧ s1.enteredCode.length = 5 :=
  ⟨by decide, by decide,
    completion_clears_entry ⟨[2, 2, 2, 2, 2], [3, 4, 5, 2, 0], 4, false, true, false, ⟨224, 2⟩⟩
      ⟨10, 5⟩ 2 (by decide) rfl (by decide) rfl⟩

/-! ## The outcomes of a call -/

/-- The seven outcomes of a call from a state that satisfies the invariant:
nothing happens, a symbol is stored, a Verify entry completes (match without
or with the reset button, mismatch), a Reprogram entry completes, or the reset
block runs from AwaitReset. -/
theorem processButtons_cases (s : State) (inp : Inputs) (hinv : Inv s) :
    processButtons s inp = some (s, []) ∨
    (∃ b, s.resetButtonActive = false ∧ firstPressed inp = some b ∧ s.codeIndex < 4 ∧
      processButtons s inp = some
        ({ s with enteredCode := s.enteredCode.set s.codeIndex (b + 1)
                  ports := toggleLED s.ports b
                  codeIndex := s.codeIndex + 1 },
         [Event.debounce, Event.toggleLED b])) ∨
    (∃ b, s.waitForNewCode = false ∧ s.resetButtonActive = false ∧ firstPressed inp = some b ∧
      s.codeIndex = 4 ∧ s.enteredCode.set 4 (b + 1) = s.secretCode ∧ readButton inp 5 = false ∧
      processButtons s inp = some
        ({ s with enteredCode := [0, 0, 0, 0, 0]
                  codeIndex := 0
                  resetButtonActive := true
                  ports := (flashLEDs (toggleLED s.ports b) FLASH_LONG_DURATION_MS 1 true).1 },
         [Event.debounce, Event.toggleLED b, Event.flashLEDs FLASH_LONG_DURATION_MS 1 true])) ∨
    (∃ b, s.waitForNewCode = false ∧ s.resetButtonActive = false ∧ firstPressed inp = some b ∧
      s.codeIndex = 4 ∧ s.enteredCode.set 4 (b + 1) = s.secretCode ∧ readButton inp 5 = true ∧
      processButtons s inp = some
        ({ s with secretCode := [0, 0, 0, 0, 0]
                  enteredCode := [0, 0, 0, 0, 0]
                  codeIndex := 0
                  resetButtonActive := false
                  waitForNewCode := true
                  ports := (flashLEDs (flashLEDs (toggleLED s.ports b) FLASH_LONG_DURATION_MS 1
                              true).1 FLASH_SHORT_DURATION_MS 3 false).1 },
         [Event.debounce, Event.toggleLED b, Event.flashLEDs FLASH_LONG_DURATION_MS 1 true,
          Event.debounce, Event.flashLEDs FLASH_SHORT_DURATION_MS 3 false])) ∨
    (∃ b, s.waitForNewCode = false ∧ s.resetButtonActive = false ∧ firstPressed inp = some b ∧
      s.codeIndex = 4 ∧ s.enteredCode.set 4 (b + 1) ≠ s.secretCode ∧
      processButtons s inp = some
        ({ s with enteredCode := [0, 0, 0, 0, 0]
                  codeIndex := 0
                  ports := (rotate (flashLEDs (toggleLED s.ports b) FLASH_SHORT_DURATION_MS 3 false).1
                              false).1 },
         [Event.debounce, Event.toggleLED b, Event.flashLEDs FLASH_SHORT_DURATION_MS 3 false,
          Event.rotate false])) ∨
    (∃ b, s.waitForNewCode = true ∧ s.resetButtonActive = false ∧ firstPressed inp = some b ∧
      s.codeIndex = 4 ∧
      processButtons s inp = some
        ({ s with secretCode := s.enteredCode.set 4 (b + 1)
                  enteredCode := [0, 0, 0, 0, 0]
                  codeIndex := 0
                  waitForNewCode := false
                  ports := (flashLEDs (toggleLED s.ports b) FLASH_LONG_DURATION_MS 1 true).1 },
         [Event.debounce, Event.toggleLED b, Event.flashLEDs FLASH_LONG_DURATION_MS 1 true])) ∨
    (s.resetButtonActive = true ∧ s.waitForNewCode = false ∧ readButton inp 5 = true ∧
      processButtons s inp = some
        ({ s with secretCode := [0, 0, 0, 0, 0]
                  codeIndex := 0
                  resetButtonActive := false
                  waitForNewCode := true
                  ports := (flashLEDs s.ports FLASH_SHORT_DURATION_MS 3 false).1 },
         [Event.debounce, Event.flashLEDs FLASH_SHORT_DURATION_MS 3 false])) := by
  have hwf : s.WF := hinv.1
  have hk5 : s.codeIndex < 5 := hinv.2.1
  have hra := hinv.2.2.2.2.1
  rcases Bool.eq_false_or_eq_true s.resetButtonActive with hr | hr
  · obtain ⟨hw, _⟩ := hra hr
    rcases Bool.eq_false_or_eq_true (readButton inp 5) with h5 | h5
    · exact Or.inr (Or.inr (Or.inr (Or.inr (Or.inr (Or.inr ⟨hr, hw, h5,
        processButtons_reset s inp hr h5 hwf.1⟩)))))
    · exact Or.inl (processButtons_idle s inp (Or.inl ⟨hr, hw, h5⟩))
  · cases hfp : firstPressed inp with
    | none => exact Or.inl (processButtons_idle s inp (Or.inr ⟨hr, hfp⟩))
    | some b =>
      by_cases hk4 : s.codeIndex < 4
      · exact Or.inr (Or.inl ⟨b, hr, rfl, hk4,
          processButtons_store s inp b hr hfp hk4 (by rw [hwf.2]; simp [MAX_CODE_LENGTH]; omega)⟩)
      · have hk : s.codeIndex = 4 := by omega
        rcases Bool.eq_false_or_eq_true s.waitForNewCode with hw | hw
        · exact Or.inr (Or.inr (Or.inr (Or.inr (Or.inr (Or.inl ⟨b, hw, hr, rfl, hk,
            processButtons_newCode_complete s inp b hwf hw hr hfp hk⟩)))))
        · by_cases heq : s.enteredCode.set 4 (b + 1) = s.secretCode
          · rcases Bool.eq_false_or_eq_true (readButton inp 5) with h5 | h5
            · refine Or.inr (Or.inr (Or.inr (Or.inl ⟨b, hw, hr, rfl, hk, heq, h5, ?_⟩)))
              rw [processButtons_verify_complete_reset s inp b hwf hw hr hfp h5 hk, if_pos heq]
            · refine Or.inr (Or.inr (Or.inl ⟨b, hw, hr, rfl, hk, heq, h5, ?_⟩))
              rw [processButtons_verify_complete s inp b hwf hw hr hfp h5 hk,
                verifyBlock_complete s inp b hwf hfp hk, if_pos heq]
          · refine Or.inr (Or.inr (Or.inr (Or.inr (Or.inl ⟨b, hw, hr, rfl, hk, heq, ?_⟩))))
            rcases Bool.eq_false_or_eq_true (readButton inp 5) with h5 | h5
            · rw [processButtons_verify_complete_reset s inp b hwf hw hr hfp h5 hk, if_neg heq]
            · rw [processButtons_verify_complete s inp b hwf hw hr hfp h5 hk,
                verifyBlock_complete s inp b hwf hfp hk, if_neg heq]

/-- A call from a state that satisfies the invariant returns (no write
outside an array), and the state it returns satisfies the invariant. -/
theorem processButtons_total (s : State) (inp : Inputs) (hinv : Inv s) :
    ∃ s1 log, processButtons s inp = some (s1, log) ∧ Inv s1 := by
  have key : ∃ r, processButtons s inp = some r := by
    rcases processButtons_cases s inp hinv with h | ⟨b, _, _, _, h⟩ | ⟨b, _, _, _, _, _, _, h⟩ |
      ⟨b, _, _, _, _, _, _, h⟩ | ⟨b, _, _, _, _, _, h⟩ | ⟨b, _, _, _, _, h⟩ | ⟨_, _, _, h⟩ <;>
      exact ⟨_, h⟩
  obtain ⟨⟨s1, log⟩, h⟩ := key
  exact ⟨s1, log, h, Inv_step s s1 inp log hinv h⟩

/-! ## Invariants of the reachable states -/

/-- The state after buttons 1 and 2 were pressed at startup is reachable. -/
theorem reachable_two_entered :
    Reachable ⟨[2, 2, 2, 2, 2], [2, 3, 0, 0, 0], 2, false, true, false, ⟨128, 2⟩⟩ := by
  have hrun : runCalls startup [⟨12, 5⟩, ⟨10, 5⟩] =
      some (⟨[2, 2, 2, 2, 2], [2, 3, 0, 0, 0], 2, false, true, false, ⟨128, 2⟩⟩,
        [[Event.debounce, Event.toggleLED 1], [Event.debounce, Event.toggleLED 2]]) := by decide
  exact Reachable.runCalls _ Reachable.start hrun

/-- The state after button 1 was pressed four times at startup is reachable. -/
theorem reachable_four_entered :
    Reachable ⟨[2, 2, 2, 2, 2], [2, 2, 2, 2, 0], 4, false, true, false, ⟨224, 2⟩⟩ := by
  have hrun : runCalls startup [⟨12, 5⟩, ⟨12, 5⟩, ⟨12, 5⟩, ⟨12, 5⟩] =
      some (⟨[2, 2, 2, 2, 2], [2, 2, 2, 2, 0], 4, false, true, false, ⟨224, 2⟩⟩,
        [[Event.debounce, Event.toggleLED 1], [Event.debounce, Event.toggleLED 1],
         [Event.debounce, Event.toggleLED 1], [Event.debounce, Event.toggleLED 1]]) := by decide
  exact Reachable.runCalls _ Reachable.start hrun

/-- A completing call returns with fill count 0 (shared by the bounds on `codeIndex`). -/
theorem processButtons_complete_index (s s1 : State) (inp : Inputs) (log : List Event)
    (hinv : Inv s) (hk : s.codeIndex = 4) (hr : s.resetButtonActive = false)
    (hfp : firstPressed inp ≠ none) (h : processButtons s inp = some (s1, log)) :
    s1.codeIndex = 0 := by
  rcases processButtons_cases s inp hinv with h0 | ⟨b, _, _, h4, _⟩ | ⟨b, _, _, _, _, _, _, h1⟩ |
      ⟨b, _, _, _, _, _, _, h1⟩ | ⟨b, _, _, _, _, _, h1⟩ | ⟨b, _, _, _, _, h1⟩ | ⟨hr1, _, _, _⟩
  · exfalso
    rcases Option.ne_none_iff_exists'.mp hfp with ⟨b, hb⟩
    have hwf : s.WF := hinv.1
    rcases Bool.eq_false_or_eq_true s.waitForNewCode with hw | hw
    · rw [processButtons_newCode_complete s inp b hwf hw hr hb hk] at h0
      simp only [Option.some.injEq, Prod.mk.injEq] at h0
      exact absurd h0.2 (by simp)
    · rcases Bool.eq_false_or_eq_true (readButton inp 5) with h5 | h5
      · rw [processButtons_verify_complete_reset s inp b hwf hw hr hb h5 hk] at h0
        simp only [Option.some.injEq] at h0
        split at h0 <;> simp only [Prod.mk.injEq] at h0 <;> exact absurd h0.2 (by simp)
      · rw [processButtons_verify_complete s inp b hwf hw hr hb h5 hk,
          verifyBlock_complete s inp b hwf hb hk] at h0
        simp only [Option.some.injEq] at h0
        split at h0 <;> simp only [Prod.mk.injEq] at h0 <;> exact absurd h0.2 (by simp)
  · omega
  all_goals first
    | (rw [h1] at h
       simp only [Option.some.injEq, Prod.mk.injEq] at h
       rw [← h.1])
    | (rw [hr] at hr1; exact absurd hr1 (by simp))

/-- C11: in every reachable state `codeIndex` is at most 4 between calls; the
store `enteredCode[codeIndex] = ...` of a call is inside the five-element
array and the incremented index is at most 5, equal to 5 exactly in the call
that stores the fifth symbol; every call returns (no write outside an array)
with `codeIndex` at most 4, and the completing call returns with
`codeIndex = 0`. -/
theorem codeIndex_in_bounds (s : State) (inp : Inputs) (pin : Nat) (hreach : Reachable s) :
    s.codeIndex ≤ 4 ∧
    (s.codeIndex < s.enteredCode.length ∧ s.enteredCode.length = 5 ∧
      ∃ sp lp, storePress s pin = some (sp, lp) ∧ sp.codeIndex = s.codeIndex + 1 ∧
        sp.codeIndex ≤ 5 ∧ (sp.codeIndex = 5 ↔ s.codeIndex = 4)) ∧
    (∃ s1 log, processButtons s inp = some (s1, log) ∧ s1.codeIndex ≤ 4 ∧
      (s.codeIndex = 4 → s.resetButtonActive = false → firstPressed inp ≠ none →
        s1.codeIndex = 0)) := by
  have hinv := hreach.inv
  have hwf : s.WF := hinv.1
  have hk5 : s.codeIndex < 5 := hinv.2.1
  have he : s.enteredCode.length = 5 := hwf.2
  refine ⟨by omega, ⟨by omega, he, ?_⟩, ?_⟩
  · have hlt : s.codeIndex < s.enteredCode.length := by omega
    have hmod : (s.codeIndex + 1) % 256 = s.codeIndex + 1 := Nat.mod_eq_of_lt (by omega)
    refine ⟨_, _, by simp only [storePress, if_pos hlt]; rfl, ?_, ?_, ?_⟩
    · simp only [hmod]
    · simp only [hmod]; omega
    · simp only [hmod]; omega
  · obtain ⟨s1, log, h, hinv1⟩ := processButtons_total s inp hinv
    have h1 : s1.codeIndex < 5 := hinv1.2.1
    exact ⟨s1, log, h, by omega,
      fun hk hr hfp => processButtons_complete_index s s1 inp log hinv hk hr hfp h⟩

theorem codeIndex_in_bounds_witness :
    Reachable ⟨[2, 2, 2, 2, 2], [2, 2, 2, 2, 0], 4, false, true, false, ⟨224, 2⟩⟩ ∧
    (State.mk [2, 2, 2, 2, 2] [2, 2, 2, 2, 0] 4 false true false ⟨224, 2⟩).codeIndex ≤ 4 ∧
    ((State.mk [2, 2, 2, 2, 2] [2, 2, 2, 2, 0] 4 false true false ⟨224, 2⟩).codeIndex < (State.mk [2, 2, 2, 2, 2] [2, 2, 2, 2, 0] 4 false true false ⟨224, 2⟩).enteredCode.length ∧ (State.mk [2, 2, 2, 2, 2] [2, 2, 2, 2, 0] 4 false true false ⟨224, 2⟩).enteredCode.length = 5 ∧
      ∃ sp lp, storePress (State.mk [2, 2, 2, 2, 2] [2, 2, 2, 2, 0] 4 false true false ⟨224, 2⟩) 1 = some (sp, lp) ∧ sp.codeIndex = (State.mk [2, 2, 2, 2, 2] [2, 2, 2, 2, 0] 4 false true false ⟨224, 2⟩).codeIndex + 1 ∧
        sp.codeIndex ≤ 5 ∧ (sp.codeIndex = 5 ↔ (State.mk [2, 2, 2, 2, 2] [2, 2, 2, 2, 0] 4 false true false ⟨224, 2⟩).codeIndex = 4)) ∧
    (∃ s1 log, processButtons (State.mk [2, 2, 2, 2, 2] [2, 2, 2, 2, 0] 4 false true false ⟨224, 2⟩) ⟨12, 5⟩ = some (s1, log) ∧ s1.codeIndex ≤ 4 ∧
      ((State.mk [2, 2, 2, 2, 2] [2, 2, 2, 2, 0] 4 false true false ⟨224, 2⟩).codeIndex = 4 → (State.mk [2, 2, 2, 2, 2] [2, 2, 2, 2, 0] 4 false true false ⟨224, 2⟩).resetButtonActive = false →
        firstPressed ⟨12, 5⟩ ≠ none → s1.codeIndex = 0)) :=
  ⟨reachable_four_entered,
    codeIndex_in_bounds ⟨[2, 2, 2, 2, 2], [2, 2, 2, 2, 0], 4, false, true, false, ⟨224, 2⟩⟩
      ⟨12, 5⟩ 1 reachable_four_entered⟩

/-- C12: in every reachable state `resetButtonActive` and `waitForNewCode` are
not both set, so the state is in exactly one of Verify (both clear),
AwaitReset (`resetButtonActive` only) and Reprogram (`waitForNewCode` only). -/
theorem exactly_one_mode (s : State) (hreach : Reachable s) :
    ¬ (s.resetButtonActive = true ∧ s.waitForNewCode = true) ∧
    ((s.resetButtonActive = false ∧ s.waitForNewCode = false) ∨
     (s.resetButtonActive = true ∧ s.waitForNewCode = false) ∨
     (s.resetButtonActive = false ∧ s.waitForNewCode = true)) := by
  have hra := hreach.inv.2.2.2.2.1
  rcases Bool.eq_false_or_eq_true s.resetButtonActive with hr | hr
  · have hw := (hra hr).1
    exact ⟨fun h => by rw [hw] at h; exact absurd h.2 (by simp), Or.inr (Or.inl ⟨hr, hw⟩)⟩
  · refine ⟨fun h => by rw [hr] at h; exact absurd h.1 (by simp), ?_⟩
    rcases Bool.eq_false_or_eq_true s.waitForNewCode with hw | hw
    · exact Or.inr (Or.inr ⟨hr, hw⟩)
    · exact Or.inl ⟨hr, hw⟩

theorem exactly_one_mode_witness :
    Reachable ⟨[2, 2, 2, 2, 2], [0, 0, 0, 0, 0], 0, true, true, false, ⟨224, 2⟩⟩ ∧
    ¬ ((State.mk [2, 2, 2, 2, 2] [0, 0, 0, 0, 0] 0 true true false ⟨224, 2⟩).resetButtonActive
          = true ∧
       (State.mk [2, 2, 2, 2, 2] [0, 0, 0, 0, 0] 0 true true false ⟨224, 2⟩).waitForNewCode
          = true) ∧
    (((State.mk [2, 2, 2, 2, 2] [0, 0, 0, 0, 0] 0 true true false ⟨224, 2⟩).resetButtonActive
          = false ∧
      (State.mk [2, 2, 2, 2, 2] [0, 0, 0, 0, 0] 0 true true false ⟨224, 2⟩).waitForNewCode
          = false) ∨
     ((State.mk [2, 2, 2, 2, 2] [0, 0, 0, 0, 0] 0 true true false ⟨224, 2⟩).resetButtonActive
          = true ∧
      (State.mk [2, 2, 2, 2, 2] [0, 0, 0, 0, 0] 0 true true false ⟨224, 2⟩).waitForNewCode
          = false) ∨
     ((State.mk [2, 2, 2, 2, 2] [0, 0, 0, 0, 0] 0 true true false ⟨224, 2⟩).resetButtonActive
          = false ∧
      (State.mk [2, 2, 2, 2, 2] [0, 0, 0, 0, 0] 0 true true false ⟨224, 2⟩).waitForNewCode
          = true)) :=
  ⟨reachable_unlocked,
    exactly_one_mode ⟨[2, 2, 2, 2, 2], [0, 0, 0, 0, 0], 0, true, true, false, ⟨224, 2⟩⟩
      reachable_unlocked⟩

/-- With no button pressed no code button is found by the scan and button 5 reads released. -/
theorem NoPress.scan {inp : Inputs} (h : NoPress inp) :
    firstPressed inp = none ∧ readButton inp 5 = false := by
  have h1 := h 1 (by simp)
  have h2 := h 2 (by simp)
  have h3 := h 3 (by simp)
  have h4 := h 4 (by simp)
  have h5 := h 5 (by simp)
  exact ⟨by simp [firstPressed, List.find?, h1, h2, h3, h4], h5⟩

/-- A call with no button pressed, from any state whatever. -/
theorem processButtons_no_press (s : State) (inp : Inputs) (h : NoPress inp) :
    processButtons s inp = some (s, []) := by
  obtain ⟨hfp, h5⟩ := h.scan
  rcases Bool.eq_false_or_eq_true s.waitForNewCode with hw | hw <;>
    rcases Bool.eq_false_or_eq_true s.resetButtonActive with hr | hr <;>
    simp [processButtons, verifyBlock, newCodeBlock, hr, hw, hfp, h5]

/-- C18: from every state, a call in which no button reads pressed returns
the same state (secretCode, enteredCode, codeIndex, both flags and the output
registers) and invokes no routine (no debounce, toggle or feedback); any
number of such calls in a row returns the same state with empty event lists,
so a fill count of 0 stays 0. -/
theorem no_press_no_effect (s : State) (inp : Inputs) (inps : List Inputs)
    (h : NoPress inp) (hall : ∀ i ∈ inps, NoPress i) :
    processButtons s inp = some (s, []) ∧
    runCalls s inps = some (s, List.replicate inps.length []) ∧
    (s.codeIndex = 0 → ∃ s1 logs, runCalls s inps = some (s1, logs) ∧ s1.codeIndex = 0) := by
  have hrun : runCalls s inps = some (s, List.replicate inps.length []) := by
    induction inps with
    | nil => rfl
    | cons i rest ih =>
      have hi := processButtons_no_press s i (hall i (List.mem_cons_self _ _))
      rw [runCalls_cons s s i [] rest hi, ih (fun j hj => hall j (List.mem_cons_of_mem _ hj))]
      rfl
  exact ⟨processButtons_no_press s inp h, hrun, fun hk => ⟨s, _, hrun, hk⟩⟩

theorem no_press_no_effect_witness :
    NoPress ⟨14, 5⟩ ∧ (∀ i ∈ [(⟨14, 5⟩ : Inputs), ⟨15, 7⟩, ⟨14, 5⟩], NoPress i) ∧
    processButtons startup ⟨14, 5⟩ = some (startup, []) ∧
    runCalls startup [⟨14, 5⟩, ⟨15, 7⟩, ⟨14, 5⟩] =
      some (startup, List.replicate [(⟨14, 5⟩ : Inputs), ⟨15, 7⟩, ⟨14, 5⟩].length []) ∧
    (startup.codeIndex = 0 →
      ∃ s1 logs, runCalls startup [⟨14, 5⟩, ⟨15, 7⟩, ⟨14, 5⟩] = some (s1, logs) ∧
        s1.codeIndex = 0) :=
  ⟨by decide, by decide,
    no_press_no_effect startup ⟨14, 5⟩ [⟨14, 5⟩, ⟨15, 7⟩, ⟨14, 5⟩] (by decide) (by decide)⟩

/-- The layout of the entry buffer under the invariant, slot by slot. -/
theorem Inv.layout {s : State} (hinv : Inv s) :
    s.enteredCode.length = 5 ∧
    (∀ i, s.codeIndex ≤ i → i < 5 → s.enteredCode[i]? = some 0) ∧
    (∀ i, i < s.codeIndex → ∃ v, s.enteredCode[i]? = some v ∧ v ∈ [2, 3, 4, 5]) ∧
    (s.codeIndex = 0 → s.enteredCode = [0, 0, 0, 0, 0]) := by
  obtain ⟨⟨_, he⟩, hk, hz, hv, _, _⟩ := hinv
  obtain ⟨e0, e1, e2, e3, e4, hec⟩ := length_five he
  rw [hec] at hz hv
  have hci : s.codeIndex = 0 ∨ s.codeIndex = 1 ∨ s.codeIndex = 2 ∨ s.codeIndex = 3 ∨
      s.codeIndex = 4 := by omega
  refine ⟨he, ?_, ?_, ?_⟩
  · intro i h1 h2
    rw [hec]
    have hi : i = 0 ∨ i = 1 ∨ i = 2 ∨ i = 3 ∨ i = 4 := by omega
    rcases hci with hc | hc | hc | hc | hc <;> rw [hc] at hz h1 <;> simp at hz <;>
      rcases hi with rfl | rfl | rfl | rfl | rfl <;> simp_all
  · intro i h1
    rw [hec]
    have hval : ∀ v, 2 ≤ v ∧ v ≤ 5 → v ∈ [2, 3, 4, 5] := by
      intro v hv2
      simp only [List.mem_cons, List.mem_singleton, List.not_mem_nil, or_false]
      omega
    rcases hci with hc | hc | hc | hc | hc <;> rw [hc] at hv h1 <;> simp at hv
    · omega
    · have hi : i = 0 := by omega
      subst hi
      exact ⟨e0, rfl, hval _ hv⟩
    · have hi : i = 0 ∨ i = 1 := by omega
      rcases hi with rfl | rfl
      · exact ⟨e0, rfl, hval _ hv.1⟩
      · exact ⟨e1, rfl, hval _ hv.2⟩
    · have hi : i = 0 ∨ i = 1 ∨ i = 2 := by omega
      rcases hi with rfl | rfl | rfl
      · exact ⟨e0, rfl, hval _ hv.1⟩
      · exact ⟨e1, rfl, hval _ hv.2.1⟩
      · exact ⟨e2, rfl, hval _ hv.2.2⟩
    · have hi : i = 0 ∨ i = 1 ∨ i = 2 ∨ i = 3 := by omega
      rcases hi with rfl | rfl | rfl | rfl
      · exact ⟨e0, rfl, hval _ hv.1⟩
      · exact ⟨e1, rfl, hval _ hv.2.1⟩
      · exact ⟨e2, rfl, hval _ hv.2.2.1⟩
      · exact ⟨e3, rfl, hval _ hv.2.2.2⟩
  · intro hc
    rw [hc] at hz
    simp at hz
    rw [hec]
    simp [hz]

/-- C20: in every reachable state, between calls every `enteredCode` slot at
an index from `codeIndex` on is 0 and every slot below `codeIndex` holds a
symbol in 2..5; the buffer is all 0 whenever the fill count is 0, and this
still holds after any further call, the reset transition included, which
resets `codeIndex` without writing the buffer. -/
theorem enteredCode_layout (s : State) (inp : Inputs) (hreach : Reachable s) :
    s.enteredCode.length = 5 ∧
    (∀ i, s.codeIndex ≤ i → i < 5 → s.enteredCode[i]? = some 0) ∧
    (∀ i, i < s.codeIndex → ∃ v, s.enteredCode[i]? = some v ∧ v ∈ [2, 3, 4, 5]) ∧
    (s.codeIndex = 0 → s.enteredCode = [0, 0, 0, 0, 0]) ∧
    (∃ s1 log, processButtons s inp = some (s1, log) ∧
      (s1.codeIndex = 0 → s1.enteredCode = [0, 0, 0, 0, 0]) ∧
      (s.resetButtonActive = true → readButton inp 5 = true →
        s1.waitForNewCode = true ∧ s1.codeIndex = 0 ∧ s1.enteredCode = s.enteredCode ∧
        s1.enteredCode = [0, 0, 0, 0, 0])) := by
  have hinv := hreach.inv
  obtain ⟨h1, h2, h3, h4⟩ := hinv.layout
  refine ⟨h1, h2, h3, h4, ?_⟩
  obtain ⟨s1, log, hcall, hinv1⟩ := processButtons_total s inp hinv
  refine ⟨s1, log, hcall, hinv1.layout.2.2.2, ?_⟩
  intro hr h5
  rw [processButtons_reset s inp hr h5 hinv.1.1] at hcall
  simp only [Option.some.injEq, Prod.mk.injEq] at hcall
  have hk0 : s.codeIndex = 0 := (hinv.2.2.2.2.1 hr).2
  rw [← hcall.1]
  exact ⟨rfl, rfl, rfl, h4 hk0⟩

theorem enteredCode_layout_witness :
    Reachable ⟨[2, 2, 2, 2, 2], [2, 3, 0, 0, 0], 2, false, true, false, ⟨128, 2⟩⟩ ∧
    (State.mk [2, 2, 2, 2, 2] [2, 3, 0, 0, 0] 2 false true false ⟨128, 2⟩).enteredCode.length = 5 ∧
    (∀ i, (State.mk [2, 2, 2, 2, 2] [2, 3, 0, 0, 0] 2 false true false ⟨128, 2⟩).codeIndex ≤ i → i < 5 → (State.mk [2, 2, 2, 2, 2] [2, 3, 0, 0, 0] 2 false true false ⟨128, 2⟩).enteredCode[i]? = some 0) ∧
    (∀ i, i < (State.mk [2, 2, 2, 2, 2] [2, 3, 0, 0, 0] 2 false true false ⟨128, 2⟩).codeIndex → ∃ v, (State.mk [2, 2, 2, 2, 2] [2, 3, 0, 0, 0] 2 false true false ⟨128, 2⟩).enteredCode[i]? = some v ∧ v ∈ [2, 3, 4, 5]) ∧
    ((State.mk [2, 2, 2, 2, 2] [2, 3, 0, 0, 0] 2 false true false ⟨128, 2⟩).codeIndex = 0 → (State.mk [2, 2, 2, 2, 2] [2, 3, 0, 0, 0] 2 false true false ⟨128, 2⟩).enteredCode = [0, 0, 0, 0, 0]) ∧
    (∃ s1 log,
      processButtons ⟨[2, 2, 2, 2, 2], [2, 3, 0, 0, 0], 2, false, true, false, ⟨128, 2⟩⟩ ⟨6, 5⟩ =
        some (s1, log) ∧
      (s1.codeIndex = 0 → s1.enteredCode = [0, 0, 0, 0, 0]) ∧
      ((State.mk [2, 2, 2, 2, 2] [2, 3, 0, 0, 0] 2 false true false ⟨128, 2⟩).resetButtonActive = true → readButton ⟨6, 5⟩ 5 = true →
        s1.waitForNewCode = true ∧ s1.codeIndex = 0 ∧ s1.enteredCode = (State.mk [2, 2, 2, 2, 2] [2, 3, 0, 0, 0] 2 false true false ⟨128, 2⟩).enteredCode ∧
        s1.enteredCode = [0, 0, 0, 0, 0])) :=
  ⟨reachable_two_entered,
    enteredCode_layout ⟨[2, 2, 2, 2, 2], [2, 3, 0, 0, 0], 2, false, true, false, ⟨128, 2⟩⟩ ⟨6, 5⟩
      reachable_two_entered⟩

/-! ## The secret between calls -/

/-- In a reachable Reprogram state the secret is the all-zero array written
by the reset block. -/
theorem Reachable.secret_zero {s : State} (h : Reachable s) :
    s.waitForNewCode = true → s.secretCode = [0, 0, 0, 0, 0] := by
  induction h with
  | start => intro hw; exact absurd hw (by decide)
  | @call s0 s1 log inp hprev hstep ih =>
    rcases processButtons_cases s0 inp hprev.inv with h0 | ⟨b, _, _, _, h1⟩ |
      ⟨b, hw0, _, _, _, _, _, h1⟩ | ⟨b, _, _, _, _, _, _, h1⟩ | ⟨b, hw0, _, _, _, _, h1⟩ |
      ⟨b, _, _, _, _, h1⟩ | ⟨_, _, _, h1⟩
    · rw [h0] at hstep
      simp only [Option.some.injEq, Prod.mk.injEq] at hstep
      rw [← hstep.1]; exact ih
    · rw [h1] at hstep
      simp only [Option.some.injEq, Prod.mk.injEq] at hstep
      rw [← hstep.1]; exact ih
    · rw [h1] at hstep
      simp only [Option.some.injEq, Prod.mk.injEq] at hstep
      rw [← hstep.1]
      intro hw; simp only at hw; rw [hw0] at hw; exact absurd hw (by simp)
    · rw [h1] at hstep
      simp only [Option.some.injEq, Prod.mk.injEq] at hstep
      rw [← hstep.1]
      intro _; rfl
    · rw [h1] at hstep
      simp only [Option.some.injEq, Prod.mk.injEq] at hstep
      rw [← hstep.1]
      intro hw; simp only at hw; rw [hw0] at hw; exact absurd hw (by simp)
    · rw [h1] at hstep
      simp only [Option.some.injEq, Prod.mk.injEq] at hstep
      rw [← hstep.1]
      intro hw; exact absurd hw (by simp)
    · rw [h1] at hstep
      simp only [Option.some.injEq, Prod.mk.injEq] at hstep
      rw [← hstep.1]
      intro _; rfl

/-- In Reprogram mode a call runs the new-code block only: the first block,
the one that calls `compareCode`, and the reset block are skipped. -/
theorem processButtons_reprogram (s : State) (inp : Inputs)
    (hw : s.waitForNewCode = true) (hr : s.resetButtonActive = false) :
    processButtons s inp = newCodeBlock s inp := by
  simp only [processButtons, hw, hr, Bool.not_true, Bool.not_false, Bool.and_false,
    Bool.false_and, Bool.false_eq_true, if_false, if_true, List.nil_append]
  cases newCodeBlock s inp with
  | none => rfl
  | some r => rfl

/-- C19: in every reachable state outside Reprogram mode the five `secretCode`
entries are symbols in 2..5, so the secret handed to `compareCode` is never
the all-zero array; in a reachable Reprogram state the secret is all 0, the
call runs only the new-code block (the block with `compareCode` is skipped),
and a call that leaves Reprogram mode returns with five symbols in 2..5 in
`secretCode`. Between calls the secret is either all 0 or five valid symbols. -/
theorem zero_secret_only_in_reprogram (s : State) (inp : Inputs) (hreach : Reachable s) :
    (s.waitForNewCode = false →
      s.secretCode.length = 5 ∧ (∀ c ∈ s.secretCode, c ∈ [2, 3, 4, 5]) ∧
      s.secretCode ≠ [0, 0, 0, 0, 0]) ∧
    (s.waitForNewCode = true →
      s.secretCode = [0, 0, 0, 0, 0] ∧ s.resetButtonActive = false ∧
      processButtons s inp = newCodeBlock s inp) ∧
    (∃ s1 log, processButtons s inp = some (s1, log) ∧
      (s.waitForNewCode = true → s1.waitForNewCode = false →
        s1.secretCode.length = 5 ∧ ∀ c ∈ s1.secretCode, c ∈ [2, 3, 4, 5])) := by
  have hinv := hreach.inv
  have hvalid : ∀ t : State, Inv t → t.waitForNewCode = false →
      t.secretCode.length = 5 ∧ ∀ c ∈ t.secretCode, c ∈ [2, 3, 4, 5] := by
    intro t ht hw
    refine ⟨ht.1.1, ?_⟩
    intro c hc
    have := ht.2.2.2.2.2 hw c hc
    simp only [List.mem_cons, List.mem_singleton, List.not_mem_nil, or_false]
    omega
  refine ⟨?_, ?_, ?_⟩
  · intro hw
    obtain ⟨hl, hv⟩ := hvalid s hinv hw
    refine ⟨hl, hv, ?_⟩
    intro hz
    have := hv 0 (by rw [hz]; simp)
    simp at this
  · intro hw
    have hr : s.resetButtonActive = false := by
      rcases Bool.eq_false_or_eq_true s.resetButtonActive with hr | hr
      · have := (hinv.2.2.2.2.1 hr).1
        rw [hw] at this; exact absurd this (by simp)
      · exact hr
    exact ⟨hreach.secret_zero hw, hr, processButtons_reprogram s inp hw hr⟩
  · obtain ⟨s1, log, hcall, hinv1⟩ := processButtons_total s inp hinv
    exact ⟨s1, log, hcall, fun _ hw1 => hvalid s1 hinv1 hw1⟩

/-- A Reprogram state with four symbols of the new code entered is reachable. -/
theorem reachable_reprogram_four :
    Reachable ⟨[0, 0, 0, 0, 0], [3, 4, 5, 3, 0], 4, false, true, true, ⟨96, 0⟩⟩ := by
  have hrun : runCalls ⟨[2, 2, 2, 2, 2], [0, 0, 0, 0, 0], 0, true, true, false, ⟨224, 2⟩⟩
      [⟨14, 1⟩, ⟨10, 5⟩, ⟨6, 5⟩, ⟨14, 4⟩, ⟨10, 5⟩] =
      some (⟨[0, 0, 0, 0, 0], [3, 4, 5, 3, 0], 4, false, true, true, ⟨96, 0⟩⟩,
        [[Event.debounce, Event.flashLEDs 250 3 false],
         [Event.debounce, Event.toggleLED 2], [Event.debounce, Event.toggleLED 3],
         [Event.debounce, Event.toggleLED 4], [Event.debounce, Event.toggleLED 2]]) := by decide
  exact Reachable.runCalls _ reachable_unlocked hrun

theorem zero_secret_only_in_reprogram_witness :
    Reachable ⟨[0, 0, 0, 0, 0], [3, 4, 5, 3, 0], 4, false, true, true, ⟨96, 0⟩⟩ ∧
    ((State.mk [0, 0, 0, 0, 0] [3, 4, 5, 3, 0] 4 false true true ⟨96, 0⟩).waitForNewCode = false →
      (State.mk [0, 0, 0, 0, 0] [3, 4, 5, 3, 0] 4 false true true ⟨96, 0⟩).secretCode.length = 5 ∧ (∀ c ∈ (State.mk [0, 0, 0, 0, 0] [3, 4, 5, 3, 0] 4 false true true ⟨96, 0⟩).secretCode, c ∈ [2, 3, 4, 5]) ∧
      (State.mk [0, 0, 0, 0, 0] [3, 4, 5, 3, 0] 4 false true true ⟨96, 0⟩).secretCode ≠ [0, 0, 0, 0, 0]) ∧
    ((State.mk [0, 0, 0, 0, 0] [3, 4, 5, 3, 0] 4 false true true ⟨96, 0⟩).waitForNewCode = true →
      (State.mk [0, 0, 0, 0, 0] [3, 4, 5, 3, 0] 4 false true true ⟨96, 0⟩).secretCode = [0, 0, 0, 0, 0] ∧ (State.mk [0, 0, 0, 0, 0] [3, 4, 5, 3, 0] 4 false true true ⟨96, 0⟩).resetButtonActive = false ∧
      processButtons (State.mk [0, 0, 0, 0, 0] [3, 4, 5, 3, 0] 4 false true true ⟨96, 0⟩) ⟨12, 5⟩ = newCodeBlock (State.mk [0, 0, 0, 0, 0] [3, 4, 5, 3, 0] 4 false true true ⟨96, 0⟩) ⟨12, 5⟩) ∧
    (∃ s1 log, processButtons (State.mk [0, 0, 0, 0, 0] [3, 4, 5, 3, 0] 4 false true true ⟨96, 0⟩) ⟨12, 5⟩ = some (s1, log) ∧
      ((State.mk [0, 0, 0, 0, 0] [3, 4, 5, 3, 0] 4 false true true ⟨96, 0⟩).waitForNewCode = true → s1.waitForNewCode = false →
        s1.secretCode.length = 5 ∧ ∀ c ∈ s1.secretCode, c ∈ [2, 3, 4, 5])) :=
  ⟨reachable_reprogram_four,
    zero_secret_only_in_reprogram
      ⟨[0, 0, 0, 0, 0], [3, 4, 5, 3, 0], 4, false, true, true, ⟨96, 0⟩⟩ ⟨12, 5⟩
      reachable_reprogram_four⟩

/-! ## One press per call -/

/-- C14, the code at the failing input: in the reachable Verify state with
four symbols of the right code entered, a call in which code button 1 and the
reset button both read pressed stores the fifth symbol, gives the Success
feedback and then runs the reset handling as well (second debounce,
`flashLEDs(250, 3, false)`, secret zeroed, Reprogram mode): two presses are
handled in one call. -/
theorem append_and_reset_in_one_call :
    Reachable ⟨[2, 2, 2, 2, 2], [2, 2, 2, 2, 0], 4, false, true, false, ⟨224, 2⟩⟩ ∧
    readButton ⟨12, 1⟩ 1 = true ∧ readButton ⟨12, 1⟩ 5 = true ∧
    processButtons ⟨[2, 2, 2, 2, 2], [2, 2, 2, 2, 0], 4, false, true, false, ⟨224, 2⟩⟩ ⟨12, 1⟩ =
      some (⟨[0, 0, 0, 0, 0], [0, 0, 0, 0, 0], 0, false, true, true, ⟨224, 2⟩⟩,
        [Event.debounce, Event.toggleLED 1, Event.flashLEDs 2000 1 true,
         Event.debounce, Event.flashLEDs 250 3 false]) :=
  ⟨reachable_four_entered, by decide, by decide, by decide⟩

/-! ## Writes to the secret -/

/-- With `waitForNewCode` set and the reset block not taken, a call is the new-code block. -/
theorem processButtons_newCode_only (s : State) (inp : Inputs) (hw : s.waitForNewCode = true)
    (h : s.resetButtonActive = false ∨ readButton inp 5 = false) :
    processButtons s inp = newCodeBlock s inp := by
  have hcond : (readButton inp 5 && s.resetButtonActive) = false := by
    rcases h with h | h <;> simp [h]
  simp only [processButtons, hw, Bool.not_true, Bool.false_and, Bool.false_eq_true, if_false,
    hcond, if_true, List.nil_append]
  cases newCodeBlock s inp with
  | none => rfl
  | some r => rfl

/-- The new-code block when it stores one of the first four symbols. -/
theorem newCodeBlock_store (s : State) (inp : Inputs) (b : Nat)
    (hb : firstPressed inp = some b) (hk : s.codeIndex < 4)
    (hlen : s.codeIndex < s.enteredCode.length) :
    newCodeBlock s inp = some
      ({ s with enteredCode := s.enteredCode.set s.codeIndex (b + 1)
                ports := toggleLED s.ports b
                codeIndex := s.codeIndex + 1 },
       [Event.debounce, Event.toggleLED b]) := by
  obtain ⟨hbm, _⟩ := firstPressed_mem hb
  have hsym : (if b < 4 then b + 1 else 5) = b + 1 := by
    rcases hbm with rfl | rfl | rfl | rfl <;> rfl
  have hmod : (s.codeIndex + 1) % 256 = s.codeIndex + 1 := Nat.mod_eq_of_lt (by omega)
  have hne : ¬ (s.codeIndex + 1 = 5) := by omega
  simp [newCodeBlock, storePress, hb, hlen, hsym, hmod, hne, MAX_CODE_LENGTH]

/-- The new-code block when it stores the fifth symbol. -/
theorem newCodeBlock_complete (s : State) (inp : Inputs) (b : Nat)
    (hwf : s.WF) (hb : firstPressed inp = some b) (hk : s.codeIndex = 4) :
    newCodeBlock s inp = some
      ({ s with secretCode := s.enteredCode.set 4 (b + 1)
                enteredCode := [0, 0, 0, 0, 0]
                codeIndex := 0
                waitForNewCode := false
                ports := (flashLEDs (toggleLED s.ports b) FLASH_LONG_DURATION_MS 1 true).1 },
       [Event.debounce, Event.toggleLED b, Event.flashLEDs FLASH_LONG_DURATION_MS 1 true]) := by
  obtain ⟨hbm, _⟩ := firstPressed_mem hb
  obtain ⟨hs, he⟩ := hwf
  have hsym : (if b < 4 then b + 1 else 5) = b + 1 := by
    rcases hbm with rfl | rfl | rfl | rfl <;> rfl
  have hlen : (s.enteredCode.set 4 (b + 1)).length = 5 := by rw [List.length_set]; exact he
  have hcp := copy_array_five s.secretCode (s.enteredCode.set 4 (b + 1)) hs hlen
  have hms := my_memset_five (s.enteredCode.set 4 (b + 1)) hlen
  have hlt : 4 < s.enteredCode.length := by rw [he]; decide
  simp [newCodeBlock, storePress, hb, hk, hlt, hsym, hcp, hms, MAX_CODE_LENGTH]

/-- A store with the fill count outside the array: the call has no defined result. -/
theorem processButtons_out_of_bounds (s : State) (inp : Inputs) (b : Nat)
    (hb : firstPressed inp = some b) (hk : s.enteredCode.length ≤ s.codeIndex)
    (hmode : (s.waitForNewCode = false ∧ s.resetButtonActive = false) ∨
             (s.waitForNewCode = true ∧
               (s.resetButtonActive = false ∨ readButton inp 5 = false))) :
    processButtons s inp = none := by
  have hlt : ¬ (s.codeIndex < s.enteredCode.length) := by omega
  rcases hmode with ⟨hw, hr⟩ | ⟨hw, h⟩
  · simp [processButtons, verifyBlock, storePress, hb, hw, hr, hlt]
  · rw [processButtons_newCode_only s inp hw h]
    simp [newCodeBlock, storePress, hb, hlt]

/-- C13 (amended): if a call of `processButtons` on arrays of the declared size
leaves `secretCode` different from its value before the call, then either the
call ran the reset handling (button 5 read pressed while `resetButtonActive`
was set, at entry or by the completion of a right code in the same call),
which zeroes `secretCode` and enters Reprogram mode, or the call started with
`waitForNewCode` set and stored the fifth symbol of the new code, which
becomes the secret; no other call changes `secretCode`. -/
theorem secretCode_change_cases (s s1 : State) (inp : Inputs) (log : List Event)
    (hwf : s.WF) (hcall : processButtons s inp = some (s1, log))
    (hne : s1.secretCode ≠ s.secretCode) :
    (readButton inp 5 = true ∧
      (s.resetButtonActive = true ∨
        (s.waitForNewCode = false ∧ s.codeIndex = 4 ∧
          ∃ b, firstPressed inp = some b ∧ s.enteredCode.set 4 (b + 1) = s.secretCode)) ∧
      s1.secretCode = [0, 0, 0, 0, 0] ∧ s1.waitForNewCode = true ∧
      s1.resetButtonActive = false ∧
      ∃ l0, log = l0 ++ [Event.debounce, Event.flashLEDs 250 3 false]) ∨
    (s.waitForNewCode = true ∧ s.codeIndex = 4 ∧
      ∃ b, firstPressed inp = some b ∧ s1.secretCode = s.enteredCode.set 4 (b + 1) ∧
        s1.waitForNewCode = false ∧ Event.flashLEDs 2000 1 true ∈ log) := by
  have hnew : s.waitForNewCode = true →
      (s.resetButtonActive = false ∨ readButton inp 5 = false) →
      s.waitForNewCode = true ∧ s.codeIndex = 4 ∧
      ∃ b, firstPressed inp = some b ∧ s1.secretCode = s.enteredCode.set 4 (b + 1) ∧
        s1.waitForNewCode = false ∧ Event.flashLEDs 2000 1 true ∈ log := by
    intro hw h
    have hnb := processButtons_newCode_only s inp hw h
    cases hfp : firstPressed inp with
    | none =>
      exfalso
      rw [hnb] at hcall
      simp only [newCodeBlock, hfp, Option.some.injEq, Prod.mk.injEq] at hcall
      exact hne (by rw [← hcall.1])
    | some b =>
      rcases Nat.lt_trichotomy s.codeIndex 4 with hk | hk | hk
      · exfalso
        rw [hnb, newCodeBlock_store s inp b hfp hk (by rw [hwf.2]; simp [MAX_CODE_LENGTH]; omega)]
          at hcall
        simp only [Option.some.injEq, Prod.mk.injEq] at hcall
        exact hne (by rw [← hcall.1])
      · rw [hnb, newCodeBlock_complete s inp b hwf hfp hk] at hcall
        simp only [Option.some.injEq, Prod.mk.injEq] at hcall
        refine ⟨hw, hk, b, rfl, ?_, ?_, ?_⟩
        · rw [← hcall.1]
        · rw [← hcall.1]
        · rw [← hcall.2]; simp [FLASH_LONG_DURATION_MS]
      · exfalso
        rw [processButtons_out_of_bounds s inp b hfp (by rw [hwf.2]; simp [MAX_CODE_LENGTH]; omega)
          (Or.inr ⟨hw, h⟩)] at hcall
        simp at hcall
  rcases Bool.eq_false_or_eq_true s.resetButtonActive with hr | hr
  · rcases Bool.eq_false_or_eq_true (readButton inp 5) with h5 | h5
    · left
      rw [processButtons_reset s inp hr h5 hwf.1] at hcall
      simp only [Option.some.injEq, Prod.mk.injEq] at hcall
      refine ⟨h5, Or.inl hr, ?_, ?_, ?_, [], ?_⟩
      · rw [← hcall.1]
      · rw [← hcall.1]
      · rw [← hcall.1]
      · rw [← hcall.2]; rfl
    · rcases Bool.eq_false_or_eq_true s.waitForNewCode with hw | hw
      · exact Or.inr (hnew hw (Or.inr h5))
      · exfalso
        rw [processButtons_idle s inp (Or.inl ⟨hr, hw, h5⟩)] at hcall
        simp only [Option.some.injEq, Prod.mk.injEq] at hcall
        exact hne (by rw [← hcall.1])
  · rcases Bool.eq_false_or_eq_true s.waitForNewCode with hw | hw
    · exact Or.inr (hnew hw (Or.inl hr))
    · cases hfp : firstPressed inp with
      | none =>
        exfalso
        rw [processButtons_idle s inp (Or.inr ⟨hr, hfp⟩)] at hcall
        simp only [Option.some.injEq, Prod.mk.injEq] at hcall
        exact hne (by rw [← hcall.1])
      | some b =>
        rcases Nat.lt_trichotomy s.codeIndex 4 with hk | hk | hk
        · exfalso
          rw [processButtons_store s inp b hr hfp hk
            (by rw [hwf.2]; simp [MAX_CODE_LENGTH]; omega)] at hcall
          simp only [Option.some.injEq, Prod.mk.injEq] at hcall
          exact hne (by rw [← hcall.1])
        · rcases Bool.eq_false_or_eq_true (readButton inp 5) with h5 | h5
          · rw [processButtons_verify_complete_reset s inp b hwf hw hr hfp h5 hk] at hcall
            by_cases heq : s.enteredCode.set 4 (b + 1) = s.secretCode
            · left
              rw [if_pos heq] at hcall
              simp only [Option.some.injEq, Prod.mk.injEq] at hcall
              refine ⟨h5, Or.inr ⟨hw, hk, b, rfl, heq⟩, ?_, ?_, ?_,
                [Event.debounce, Event.toggleLED b, Event.flashLEDs 2000 1 true], ?_⟩
              · rw [← hcall.1]
              · rw [← hcall.1]
              · rw [← hcall.1]
              · rw [← hcall.2]; rfl
            · exfalso
              rw [if_neg heq] at hcall
              simp only [Option.some.injEq, Prod.mk.injEq] at hcall
              exact hne (by rw [← hcall.1])
          · exfalso
            rw [processButtons_verify_complete s inp b hwf hw hr hfp h5 hk,
              verifyBlock_complete s inp b hwf hfp hk] at hcall
            by_cases heq : s.enteredCode.set 4 (b + 1) = s.secretCode
            · rw [if_pos heq] at hcall
              simp only [Option.some.injEq, Prod.mk.injEq] at hcall
              exact hne (by rw [← hcall.1])
            · rw [if_neg heq] at hcall
              simp only [Option.some.injEq, Prod.mk.injEq] at hcall
              exact hne (by rw [← hcall.1])
        · exfalso
          rw [processButtons_out_of_bounds s inp b hfp
            (by rw [hwf.2]; simp [MAX_CODE_LENGTH]; omega) (Or.inl ⟨hw, hr⟩)] at hcall
          simp at hcall

theorem secretCode_change_cases_witness :
    State.WF ⟨[2, 2, 2, 2, 2], [0, 0, 0, 0, 0], 0, true, true, false, ⟨224, 2⟩⟩ ∧
    processButtons ⟨[2, 2, 2, 2, 2], [0, 0, 0, 0, 0], 0, true, true, false, ⟨224, 2⟩⟩ ⟨14, 1⟩ =
      some (⟨[0, 0, 0, 0, 0], [0, 0, 0, 0, 0], 0, false, true, true, ⟨224, 2⟩⟩,
        [Event.debounce, Event.flashLEDs 250 3 false]) ∧
    (State.mk [0, 0, 0, 0, 0] [0, 0, 0, 0, 0] 0 false true true ⟨224, 2⟩).secretCode ≠ (State.mk [2, 2, 2, 2, 2] [0, 0, 0, 0, 0] 0 true true false ⟨224, 2⟩).secretCode ∧
    ((readButton ⟨14, 1⟩ 5 = true ∧
      ((State.mk [2, 2, 2, 2, 2] [0, 0, 0, 0, 0] 0 true true false ⟨224, 2⟩).resetButtonActive = true ∨
        ((State.mk [2, 2, 2, 2, 2] [0, 0, 0, 0, 0] 0 true true false ⟨224, 2⟩).waitForNewCode = false ∧ (State.mk [2, 2, 2, 2, 2] [0, 0, 0, 0, 0] 0 true true false ⟨224, 2⟩).codeIndex = 4 ∧
          ∃ b, firstPressed ⟨14, 1⟩ = some b ∧ (State.mk [2, 2, 2, 2, 2] [0, 0, 0, 0, 0] 0 true true false ⟨224, 2⟩).enteredCode.set 4 (b + 1) = (State.mk [2, 2, 2, 2, 2] [0, 0, 0, 0, 0] 0 true true false ⟨224, 2⟩).secretCode)) ∧
      (State.mk [0, 0, 0, 0, 0] [0, 0, 0, 0, 0] 0 false true true ⟨224, 2⟩).secretCode = [0, 0, 0, 0, 0] ∧ (State.mk [0, 0, 0, 0, 0] [0, 0, 0, 0, 0] 0 false true true ⟨224, 2⟩).waitForNewCode = true ∧
      (State.mk [0, 0, 0, 0, 0] [0, 0, 0, 0, 0] 0 false true true ⟨224, 2⟩).resetButtonActive = false ∧
      ∃ l0, [Event.debounce, Event.flashLEDs 250 3 false] =
        l0 ++ [Event.debounce, Event.flashLEDs 250 3 false]) ∨
    ((State.mk [2, 2, 2, 2, 2] [0, 0, 0, 0, 0] 0 true true false ⟨224, 2⟩).waitForNewCode = true ∧ (State.mk [2, 2, 2, 2, 2] [0, 0, 0, 0, 0] 0 true true false ⟨224, 2⟩).codeIndex = 4 ∧
      ∃ b, firstPressed ⟨14, 1⟩ = some b ∧ (State.mk [0, 0, 0, 0, 0] [0, 0, 0, 0, 0] 0 false true true ⟨224, 2⟩).secretCode = (State.mk [2, 2, 2, 2, 2] [0, 0, 0, 0, 0] 0 true true false ⟨224, 2⟩).enteredCode.set 4 (b + 1) ∧
        (State.mk [0, 0, 0, 0, 0] [0, 0, 0, 0, 0] 0 false true true ⟨224, 2⟩).waitForNewCode = false ∧
        Event.flashLEDs 2000 1 true ∈ [Event.debounce, Event.flashLEDs 250 3 false])) :=
  ⟨by decide, by decide, by decide,
    secretCode_change_cases
      ⟨[2, 2, 2, 2, 2], [0, 0, 0, 0, 0], 0, true, true, false, ⟨224, 2⟩⟩
      ⟨[0, 0, 0, 0, 0], [0, 0, 0, 0, 0], 0, false, true, true, ⟨224, 2⟩⟩ ⟨14, 1⟩
      [Event.debounce, Event.flashLEDs 250 3 false] (by decide) (by decide) (by decide)⟩

/-- C13 as stated fails: in the reachable AwaitReset state after the default
code was entered (`waitForNewCode` clear, no symbol stored), a call with the
reset button pressed changes `secretCode` from 2,2,2,2,2 to 0,0,0,0,0,
although the call did not start in Reprogram mode. -/
theorem secretCode_changed_by_reset_counterexample :
    Reachable ⟨[2, 2, 2, 2, 2], [0, 0, 0, 0, 0], 0, true, true, false, ⟨224, 2⟩⟩ ∧
    processButtons ⟨[2, 2, 2, 2, 2], [0, 0, 0, 0, 0], 0, true, true, false, ⟨224, 2⟩⟩ ⟨14, 1⟩ =
      some (⟨[0, 0, 0, 0, 0], [0, 0, 0, 0, 0], 0, false, true, true, ⟨224, 2⟩⟩,
        [Event.debounce, Event.flashLEDs 250 3 false]) ∧
    ¬ (∀ s1 log,
        processButtons ⟨[2, 2, 2, 2, 2], [0, 0, 0, 0, 0], 0, true, true, false, ⟨224, 2⟩⟩
          ⟨14, 1⟩ = some (s1, log) →
        s1.secretCode ≠ (State.mk [2, 2, 2, 2, 2] [0, 0, 0, 0, 0] 0 true true false ⟨224, 2⟩).secretCode → (State.mk [2, 2, 2, 2, 2] [0, 0, 0, 0, 0] 0 true true false ⟨224, 2⟩).waitForNewCode = true) := by
  have hrun : processButtons
      ⟨[2, 2, 2, 2, 2], [0, 0, 0, 0, 0], 0, true, true, false, ⟨224, 2⟩⟩ ⟨14, 1⟩ =
      some (⟨[0, 0, 0, 0, 0], [0, 0, 0, 0, 0], 0, false, true, true, ⟨224, 2⟩⟩,
        [Event.debounce, Event.flashLEDs 250 3 false]) := by decide
  refine ⟨reachable_unlocked, hrun, ?_⟩
  intro h
  exact absurd (h _ _ hrun (by decide)) (by decide)

/-! ## The lowest-numbered pressed button -/

/-- The scan finds the lowest-numbered code button that reads pressed. -/
theorem firstPressed_of_lowest {inp : Inputs} {b : Nat} (hb : 1 ≤ b ∧ b ≤ 4)
    (hpress : readButton inp b = true)
    (hlow : ∀ p, 1 ≤ p → p < b → readButton inp p = false) :
    firstPressed inp = some b := by
  have hcases : b = 1 ∨ b = 2 ∨ b = 3 ∨ b = 4 := by omega
  rcases hcases with rfl | rfl | rfl | rfl
  · simp [firstPressed, List.find?, hpress]
  · have h1 := hlow 1 (by omega) (by omega)
    simp [firstPressed, List.find?, hpress, h1]
  · have h1 := hlow 1 (by omega) (by omega)
    have h2 := hlow 2 (by omega) (by omega)
    simp [firstPressed, List.find?, hpress, h1, h2]
  · have h1 := hlow 1 (by omega) (by omega)
    have h2 := hlow 2 (by omega) (by omega)
    have h3 := hlow 3 (by omega) (by omega)
    simp [firstPressed, List.find?, hpress, h1, h2, h3]

/-- A call depends on the button readings only through the pin found by the
scan and the reading of the reset button. -/
theorem processButtons_congr (s : State) (inp inp2 : Inputs)
    (hfp : firstPressed inp2 = firstPressed inp) (h5 : readButton inp2 5 = readButton inp 5) :
    processButtons s inp2 = processButtons s inp := by
  simp only [processButtons, verifyBlock, newCodeBlock, hfp, h5]

/-- C15: in Verify or Reprogram mode with a fill count of at most 4, when `b`
is the lowest-numbered code button that reads pressed, the call appends
exactly one symbol, `b + 1`: one store and one toggle, of button `b`. Below
four stored symbols the new state holds `b + 1` in the next slot and the fill
count grows by 1; on the fifth symbol the completed code is the buffer with
`b + 1` in the last slot. Any other reading with the same lowest pressed code
button (and the same reset-button reading) gives the same state and the same
events: the other pressed buttons leave no trace. -/
theorem lowest_pressed_wins (s : State) (inp inp2 : Inputs) (b : Nat)
    (hwf : s.WF) (hr : s.resetButtonActive = false) (hk : s.codeIndex ≤ 4)
    (hb : 1 ≤ b ∧ b ≤ 4) (hpress : readButton inp b = true)
    (hlow : ∀ p, 1 ≤ p → p < b → readButton inp p = false)
    (hpress2 : readButton inp2 b = true)
    (hlow2 : ∀ p, 1 ≤ p → p < b → readButton inp2 p = false)
    (h5 : readButton inp2 5 = readButton inp 5) :
    (2 ≤ b + 1 ∧ b + 1 ≤ 5) ∧
    (∃ s1 log, processButtons s inp = some (s1, log) ∧
      log.count (Event.toggleLED b) = 1 ∧ (∀ q, Event.toggleLED q ∈ log → q = b) ∧
      (s.codeIndex < 4 →
        s1.enteredCode = s.enteredCode.set s.codeIndex (b + 1) ∧
        s1.enteredCode[s.codeIndex]? = some (b + 1) ∧ s1.codeIndex = s.codeIndex + 1) ∧
      (s.codeIndex = 4 → s.waitForNewCode = true →
        s1.secretCode = s.enteredCode.set 4 (b + 1)) ∧
      (s.codeIndex = 4 → s.waitForNewCode = false →
        (Event.flashLEDs 2000 1 true ∈ log ↔ s.enteredCode.set 4 (b + 1) = s.secretCode))) ∧
    processButtons s inp2 = processButtons s inp := by
  have hfp := firstPressed_of_lowest hb hpress hlow
  have hfp2 := firstPressed_of_lowest hb hpress2 hlow2
  refine ⟨by omega, ?_, processButtons_congr s inp inp2 (by rw [hfp, hfp2]) h5⟩
  have he : s.enteredCode.length = 5 := hwf.2
  rcases Nat.lt_or_ge s.codeIndex 4 with hk4 | hk4
  · refine ⟨_, _, processButtons_store s inp b hr hfp hk4 (by omega), ?_, ?_, ?_, ?_, ?_⟩
    · simp [List.count_cons]
    · intro q hq
      simp only [List.mem_cons, List.mem_singleton, List.not_mem_nil, or_false] at hq
      rcases hq with hq | hq
      · exact absurd hq (by simp)
      · exact Event.toggleLED.inj hq
    · intro _
      refine ⟨rfl, ?_, rfl⟩
      simp only
      rw [List.getElem?_set_self (by omega)]
    · intro h4; omega
    · intro h4; omega
  · have hk4' : s.codeIndex = 4 := by omega
    rcases Bool.eq_false_or_eq_true s.waitForNewCode with hw | hw
    · refine ⟨_, _, processButtons_newCode_complete s inp b hwf hw hr hfp hk4', ?_, ?_, ?_, ?_, ?_⟩
      · simp [List.count_cons]
      · intro q hq
        simp only [List.mem_cons, List.mem_singleton, List.not_mem_nil, or_false] at hq
        rcases hq with hq | hq | hq
        · exact absurd hq (by simp)
        · exact Event.toggleLED.inj hq
        · exact absurd hq (by simp)
      · intro h4; omega
      · intro _ _; rfl
      · intro _ hw0; rw [hw] at hw0; exact absurd hw0 (by simp)
    · by_cases heq : s.enteredCode.set 4 (b + 1) = s.secretCode
      · rcases Bool.eq_false_or_eq_true (readButton inp 5) with hb5 | hb5
        · have hcall := processButtons_verify_complete_reset s inp b hwf hw hr hfp hb5 hk4'
          rw [if_pos heq] at hcall
          refine ⟨_, _, hcall, ?_, ?_, ?_, ?_, ?_⟩
          · simp [List.count_cons]
          · intro q hq
            simp only [List.mem_cons, List.mem_singleton, List.not_mem_nil, or_false] at hq
            rcases hq with hq | hq | hq | hq | hq
            · exact absurd hq (by simp)
            · exact Event.toggleLED.inj hq
            · exact absurd hq (by simp)
            · exact absurd hq (by simp)
            · exact absurd hq (by simp)
          · intro h4; omega
          · intro _ hw1; rw [hw] at hw1; exact absurd hw1 (by simp)
          · intro _ _; simp [heq, FLASH_LONG_DURATION_MS]
        · have hcall := processButtons_verify_complete s inp b hwf hw hr hfp hb5 hk4'
          rw [verifyBlock_complete s inp b hwf hfp hk4', if_pos heq] at hcall
          refine ⟨_, _, hcall, ?_, ?_, ?_, ?_, ?_⟩
          · simp [List.count_cons]
          · intro q hq
            simp only [List.mem_cons, List.mem_singleton, List.not_mem_nil, or_false] at hq
            rcases hq with hq | hq | hq
            · exact absurd hq (by simp)
            · exact Event.toggleLED.inj hq
            · exact absurd hq (by simp)
          · intro h4; omega
          · intro _ hw1; rw [hw] at hw1; exact absurd hw1 (by simp)
          · intro _ _; simp [heq, FLASH_LONG_DURATION_MS]
      · have hcall : processButtons s inp = some
            ({ s with enteredCode := [0, 0, 0, 0, 0]
                      codeIndex := 0
                      ports := (rotate (flashLEDs (toggleLED s.ports b) FLASH_SHORT_DURATION_MS 3
                                  false).1 false).1 },
             [Event.debounce, Event.toggleLED b, Event.flashLEDs FLASH_SHORT_DURATION_MS 3 false,
              Event.rotate false]) := by
          rcases Bool.eq_false_or_eq_true (readButton inp 5) with hb5 | hb5
          · rw [processButtons_verify_complete_reset s inp b hwf hw hr hfp hb5 hk4', if_neg heq]
          · rw [processButtons_verify_complete s inp b hwf hw hr hfp hb5 hk4',
              verifyBlock_complete s inp b hwf hfp hk4', if_neg heq]
        refine ⟨_, _, hcall, ?_, ?_, ?_, ?_, ?_⟩
        · simp [List.count_cons]
        · intro q hq
          simp only [List.mem_cons, List.mem_singleton, List.not_mem_nil, or_false] at hq
          rcases hq with hq | hq | hq | hq
          · exact absurd hq (by simp)
          · exact Event.toggleLED.inj hq
          · exact absurd hq (by simp)
          · exact absurd hq (by simp)
        · intro h4; omega
        · intro _ hw1; rw [hw] at hw1; exact absurd hw1 (by simp)
        · intro _ _; simp [heq, FLASH_SHORT_DURATION_MS]

theorem lowest_pressed_wins_witness :
    State.WF ⟨[2, 2, 2, 2, 2], [2, 3, 0, 0, 0], 2, false, true, false, ⟨128, 2⟩⟩ ∧
    (State.mk [2, 2, 2, 2, 2] [2, 3, 0, 0, 0] 2 false true false ⟨128, 2⟩).resetButtonActive = false ∧ (State.mk [2, 2, 2, 2, 2] [2, 3, 0, 0, 0] 2 false true false ⟨128, 2⟩).codeIndex ≤ 4 ∧ (1 ≤ 2 ∧ 2 ≤ 4) ∧
    readButton ⟨2, 5⟩ 2 = true ∧ readButton ⟨2, 5⟩ 3 = true ∧
    (∀ p, 1 ≤ p → p < 2 → readButton ⟨2, 5⟩ p = false) ∧
    readButton ⟨10, 4⟩ 2 = true ∧ readButton ⟨10, 4⟩ 4 = true ∧
    (∀ p, 1 ≤ p → p < 2 → readButton ⟨10, 4⟩ p = false) ∧
    readButton ⟨10, 4⟩ 5 = readButton ⟨2, 5⟩ 5 ∧
    (2 ≤ 2 + 1 ∧ 2 + 1 ≤ 5) ∧
    (∃ s1 log, processButtons (State.mk [2, 2, 2, 2, 2] [2, 3, 0, 0, 0] 2 false true false ⟨128, 2⟩) ⟨2, 5⟩ = some (s1, log) ∧
      log.count (Event.toggleLED 2) = 1 ∧ (∀ q, Event.toggleLED q ∈ log → q = 2) ∧
      ((State.mk [2, 2, 2, 2, 2] [2, 3, 0, 0, 0] 2 false true false ⟨128, 2⟩).codeIndex < 4 →
        s1.enteredCode = (State.mk [2, 2, 2, 2, 2] [2, 3, 0, 0, 0] 2 false true false ⟨128, 2⟩).enteredCode.set (State.mk [2, 2, 2, 2, 2] [2, 3, 0, 0, 0] 2 false true false ⟨128, 2⟩).codeIndex (2 + 1) ∧
        s1.enteredCode[(State.mk [2, 2, 2, 2, 2] [2, 3, 0, 0, 0] 2 false true false ⟨128, 2⟩).codeIndex]? = some (2 + 1) ∧ s1.codeIndex = (State.mk [2, 2, 2, 2, 2] [2, 3, 0, 0, 0] 2 false true false ⟨128, 2⟩).codeIndex + 1) ∧
      ((State.mk [2, 2, 2, 2, 2] [2, 3, 0, 0, 0] 2 false true false ⟨128, 2⟩).codeIndex = 4 → (State.mk [2, 2, 2, 2, 2] [2, 3, 0, 0, 0] 2 false true false ⟨128, 2⟩).waitForNewCode = true →
        s1.secretCode = (State.mk [2, 2, 2, 2, 2] [2, 3, 0, 0, 0] 2 false true false ⟨128, 2⟩).enteredCode.set 4 (2 + 1)) ∧
      ((State.mk [2, 2, 2, 2, 2] [2, 3, 0, 0, 0] 2 false true false ⟨128, 2⟩).codeIndex = 4 → (State.mk [2, 2, 2, 2, 2] [2, 3, 0, 0, 0] 2 false true false ⟨128, 2⟩).waitForNewCode = false →
        (Event.flashLEDs 2000 1 true ∈ log ↔ (State.mk [2, 2, 2, 2, 2] [2, 3, 0, 0, 0] 2 false true false ⟨128, 2⟩).enteredCode.set 4 (2 + 1) = (State.mk [2, 2, 2, 2, 2] [2, 3, 0, 0, 0] 2 false true false ⟨128, 2⟩).secretCode))) ∧
    processButtons (State.mk [2, 2, 2, 2, 2] [2, 3, 0, 0, 0] 2 false true false ⟨128, 2⟩) ⟨10, 4⟩ = processButtons (State.mk [2, 2, 2, 2, 2] [2, 3, 0, 0, 0] 2 false true false ⟨128, 2⟩) ⟨2, 5⟩ := by
  have hlow : ∀ p, 1 ≤ p → p < 2 → readButton ⟨2, 5⟩ p = false := by
    intro p h1 h2
    have hp : p = 1 := by omega
    subst hp; decide
  have hlow2 : ∀ p, 1 ≤ p → p < 2 → readButton ⟨10, 4⟩ p = false := by
    intro p h1 h2
    have hp : p = 1 := by omega
    subst hp; decide
  exact ⟨by decide, rfl, by decide, by decide, by decide, by decide, hlow, by decide, by decide,
    hlow2, by decide,
    lowest_pressed_wins ⟨[2, 2, 2, 2, 2], [2, 3, 0, 0, 0], 2, false, true, false, ⟨128, 2⟩⟩
      ⟨2, 5⟩ ⟨10, 4⟩ 2 (by decide) rfl (by decide) (by decide) (by decide) hlow (by decide)
      hlow2 (by decide)⟩

/-! ## The feedback routine -/

theorem testBit_mod_256 (x i : Nat) (hi : i < 8) : (x % 256).testBit i = x.testBit i := by
  have h256 : (256 : Nat) = 2 ^ 8 := rfl
  rw [h256, Nat.testBit_mod_two_pow]
  simp [hi]

/-- A write to `OUTSET` sets the written bits. -/
theorem OUTSET_testBit (x v i : Nat) (hi : i < 8) (hv : v.testBit i = true) :
    (OUTSET x v).testBit i = true := by
  unfold OUTSET
  rw [testBit_mod_256 _ i hi, Nat.testBit_or, hv]
  simp

/-- A write to `OUTCLR` clears the written bits. -/
theorem OUTCLR_testBit (x v i : Nat) (hi : i < 8) (hv : v.testBit i = true) :
    (OUTCLR x v).testBit i = false := by
  unfold OUTCLR
  have h255 : Nat.testBit 255 i = true := by
    have : i = 0 ∨ i = 1 ∨ i = 2 ∨ i = 3 ∨ i = 4 ∨ i = 5 ∨ i = 6 ∨ i = 7 := by omega
    rcases this with rfl | rfl | rfl | rfl | rfl | rfl | rfl | rfl <;> decide
  rw [testBit_mod_256 _ i hi, Nat.testBit_and, Nat.testBit_xor, hv, h255]
  simp

theorem LEDsOff_OUTSET (a c : Nat) : LEDsOff (OUTSET a 0xE0) (OUTSET c (1 <<< 1)) :=
  ⟨OUTSET_testBit _ _ 5 (by omega) (by decide), OUTSET_testBit _ _ 6 (by omega) (by decide),
   OUTSET_testBit _ _ 7 (by omega) (by decide), OUTSET_testBit _ _ 1 (by omega) (by decide)⟩

theorem LEDsOn_OUTCLR (a c : Nat) : LEDsOn (OUTCLR a 0xE0) (OUTCLR c (1 <<< 1)) :=
  ⟨OUTCLR_testBit _ _ 5 (by omega) (by decide), OUTCLR_testBit _ _ 6 (by omega) (by decide),
   OUTCLR_testBit _ _ 7 (by omega) (by decide), OUTCLR_testBit _ _ 1 (by omega) (by decide)⟩

/-- The delays of `variable_delay_ms`: `n` delays of one millisecond each. -/
theorem variable_delay_ms_eq (p : Ports) (n : Nat) :
    variable_delay_ms p n = List.replicate n ⟨1, p.portA_out, p.portC_out⟩ := by
  induction n with
  | zero => rfl
  | succ n ih => simp only [variable_delay_ms, ih, List.replicate_succ]

/-- One iteration of the loop of `flashLEDs` ends with the lines off. -/
theorem flashLEDs_body_off (p : Ports) (duration : Nat) (success : Bool) :
    LEDsOff (flashLEDs_body p duration success).1.portA_out
      (flashLEDs_body p duration success).1.portC_out := by
  cases success
  · simp only [flashLEDs_body, Bool.false_eq_true, if_false]
    exact LEDsOff_OUTSET _ _
  · simp only [flashLEDs_body, if_true]
    exact LEDsOff_OUTSET _ _

/-- C16 (amended): for every initial state of the output lines, every
duration, every count of at least 1 and both values of the success flag, when
`flashLEDs(duration, count, success)` returns the four indicator lines (PORTA
bits 5..7 and PORTC bit 1, active-low) are off: their output bits are set. -/
theorem flashLEDs_restores_off (p : Ports) (duration count : Nat) (success : Bool)
    (hc : 1 ≤ count) :
    LEDsOff (flashLEDs p duration count success).1.portA_out
      (flashLEDs p duration count success).1.portC_out := by
  obtain ⟨c, rfl⟩ : ∃ c, count = c + 1 := ⟨count - 1, by omega⟩
  clear hc
  induction c generalizing p with
  | zero =>
    simp only [flashLEDs]
    exact flashLEDs_body_off p duration success
  | succ c ih =>
    rw [flashLEDs]
    exact ih (flashLEDs_body p duration success).1

theorem flashLEDs_restores_off_witness :
    1 ≤ 3 ∧
    LEDsOff (flashLEDs ⟨0, 0⟩ 250 3 false).1.portA_out (flashLEDs ⟨0, 0⟩ 250 3 false).1.portC_out :=
  ⟨by decide, flashLEDs_restores_off ⟨0, 0⟩ 250 3 false (by decide)⟩

/-- C16 as stated fails for `count = 0`: the loop `while (count--)` runs no
iteration, so with the four lines on at entry (output bits clear)
`flashLEDs(250, 0, false)` returns with the lines still on. -/
theorem flashLEDs_zero_count_counterexample :
    flashLEDs ⟨0, 0⟩ 250 0 false = (⟨0, 0⟩, []) ∧
    LEDsOn (flashLEDs ⟨0, 0⟩ 250 0 false).1.portA_out (flashLEDs ⟨0, 0⟩ 250 0 false).1.portC_out ∧
    ¬ LEDsOff (flashLEDs ⟨0, 0⟩ 250 0 false).1.portA_out
        (flashLEDs ⟨0, 0⟩ 250 0 false).1.portC_out := by
  refine ⟨rfl, ?_, ?_⟩
  · show LEDsOn 0 0
    decide
  · show ¬ LEDsOff 0 0
    decide

/-- C17: from every state of the output lines, `flashLEDs(2000, 1, true)`
first drives the four indicator lines on (PORTA bits 5..7 and PORTC bit 1
cleared), then runs exactly 2000 delays of one millisecond, all of them with
the lines on, then sets the lines off and returns; `variable_delay_ms(n)`
returns after exactly `n` delays of one millisecond, for every `n`. -/
theorem success_flash_timing (p : Ports) (n : Nat) :
    (flashLEDs p 2000 1 true).2 =
      List.replicate 2000
        ⟨1, OUTCLR p.portA_out 0xE0, OUTCLR p.portC_out (1 <<< 1)⟩ ∧
    LEDsOn (OUTCLR p.portA_out 0xE0) (OUTCLR p.portC_out (1 <<< 1)) ∧
    (flashLEDs p 2000 1 true).2.length = 2000 ∧
    (∀ t ∈ (flashLEDs p 2000 1 true).2, t.ms = 1 ∧ LEDsOn t.portA_out t.portC_out) ∧
    LEDsOff (flashLEDs p 2000 1 true).1.portA_out (flashLEDs p 2000 1 true).1.portC_out ∧
    (variable_delay_ms p n).length = n ∧
    (∀ t ∈ variable_delay_ms p n, t.ms = 1 ∧ t.portA_out = p.portA_out ∧
      t.portC_out = p.portC_out) := by
  have hticks : (flashLEDs p 2000 1 true).2 =
      List.replicate 2000 ⟨1, OUTCLR p.portA_out 0xE0, OUTCLR p.portC_out (1 <<< 1)⟩ := by
    simp only [flashLEDs, flashLEDs_body, if_true, variable_delay_ms_eq, List.append_nil]
  have hon := LEDsOn_OUTCLR p.portA_out p.portC_out
  refine ⟨hticks, hon, ?_, ?_, ?_, ?_, ?_⟩
  · rw [hticks, List.length_replicate]
  · intro t ht
    rw [hticks] at ht
    have := List.eq_of_mem_replicate ht
    subst this
    exact ⟨rfl, hon⟩
  · exact flashLEDs_body_off p 2000 true
  · rw [variable_delay_ms_eq, List.length_replicate]
  · intro t ht
    rw [variable_delay_ms_eq] at ht
    have := List.eq_of_mem_replicate ht
    subst this
    exact ⟨rfl, rfl, rfl⟩

end Lockbox
